import Mathlib

/-!
# v1000 (vhost port): work queue, worker loop, poll adapter and device lifecycle

A shallow embedding of `LINUX/vhost-port/v1000.c`.

Conventions of the embedding.

* Pointers to kernel objects (files, eventfd contexts, address spaces, tasks, wait-queue
  heads, the memory table) are natural-number identities; a nullable pointer is an `Option`.
* The C counters `queue_seq`, `done_seq` and the worker local `seq` are `unsigned`: they are
  natural numbers and every increment is taken modulo `2 ^ 32`.
* `dev->work_list` is an intrusive list threaded through `work->node`.  It is embedded as the
  list of the addresses of the linked work structures, head first.  A node of an intrusive
  list is non-empty exactly when it is linked on a list, and `dev->work_list` is the only
  list a work node is ever put on, so `list_empty(&work->node)` is `work ∉ work_list`.
* Everything guarded by `dev->work_lock` in one critical section is one atomic step.
* Calls into the rest of the kernel that do not change the modelled state are recorded, in
  program order, in a log of `Effect`s returned next to the new state.  `printk` is dropped.
* A call that sleeps (`wait_event` in `v1000_work_flush`, hence `v1000_dev_stop`) takes as an
  argument the steps the other threads perform while it sleeps; a fatal check (`BUG_ON`) or a
  wait that is not released yields `none`.
* `get_task_mm(current)` yields `current->mm`, which is NULL for a task without an address
  space; `v1000_dev_set_owner` itself allows for that (`if (dev->mm) mmput(dev->mm)`).
-/

namespace V1000

/-- Errno `EPERM`. -/
def EPERM : Int := 1

/-- Errno `EBUSY`. -/
def EBUSY : Int := 16

/-- Errno `EINVAL`. -/
def EINVAL : Int := 22

/-- Poll event bit `POLLIN`. -/
def POLLIN : Nat := 1

/-- Poll event bit `POLLERR`. -/
def POLLERR : Nat := 8

/-- Addition of C `unsigned` values: modulo `2 ^ 32`. -/
def u32_add (a b : Nat) : Nat := (a + b) % 4294967296

/-- Subtraction of C `unsigned` values: modulo `2 ^ 32`. -/
def u32_sub (a b : Nat) : Nat := (a % 4294967296 + (4294967296 - b % 4294967296)) % 4294967296

/-- Conversion of a C `unsigned` value to `int` (two's complement). -/
def to_int (x : Nat) : Int :=
  if x % 4294967296 < 2147483648 then ((x % 4294967296 : Nat) : Int)
  else ((x % 4294967296 : Nat) : Int) - 4294967296

/-- The fields of `struct v1000_work` other than the list node (see the header comment). -/
structure v1000_work where
  fn : Nat
  flushing : Int
  queue_seq : Nat
  done_seq : Nat
deriving DecidableEq, Repr

/-- The `struct v1000_poll` embedded in a ring: `work` is the address of the embedded work
structure, `wqh` the wait-queue head the adapter is registered on (or NULL). -/
structure v1000_poll where
  mask : Nat
  wqh : Option Nat
  work : Nat
deriving DecidableEq, Repr

/-- The fields of `struct v1000_ring` used by this file. -/
structure v1000_ring where
  private_data : Option Nat
  kick : Option Nat
  call_ctx : Option Nat
  call : Option Nat
  handle_kick : Option Nat
  poll : v1000_poll
deriving DecidableEq, Repr

/-- The fields of `struct v1000_dev`: `tx_ring` is `rings[0]`, `rx_ring` is `rings[1]`. -/
structure v1000_dev where
  tx_ring : v1000_ring
  rx_ring : v1000_ring
  memory : Option Nat
  mm : Option Nat
  work_list : List Nat
  worker : Option Nat
deriving DecidableEq, Repr

/-- Calls into the rest of the kernel, recorded in program order. -/
inductive Effect where
  | wake_up_process (task : Option Nat)
  | wake_up_all (work : Nat)
  | call_fn (fn : Nat) (work : Nat)
  | schedule
  | add_wait_queue (wqh : Nat) (ring : Fin 2)
  | remove_wait_queue (wqh : Nat) (ring : Fin 2)
  | get_task_mm (mm : Option Nat)
  | kthread_create (ok : Bool)
  | mmput (mm : Nat)
  | fput (file : Nat)
  | eventfd_ctx_put (ctx : Nat)
  | kfree (p : Option Nat)
  | WARN
  | kthread_stop (task : Nat)
deriving DecidableEq, Repr

/-- The modelled machine state: the device, the memory holding the work structures (by
address), the wait queues of the polled files (the ring indices whose `poll.wait` entry is
on each wait-queue head), and the locals `work` and `seq` of the worker thread. -/
structure State where
  dev : v1000_dev
  works : Nat → v1000_work
  waitq : Nat → List (Fin 2)
  wk_work : Option Nat
  wk_seq : Nat

/-- The calling task `current`: its address space (NULL for a kernel thread) and its pid. -/
structure task_struct where
  mm : Option Nat
  pid : Nat
deriving DecidableEq, Repr

/-- What `kthread_create` returns: a task, or `ERR_PTR(-(e + 1))` with `e + 1 ≤ MAX_ERRNO`. -/
inductive kthread_result where
  | task (t : Nat)
  | err_ptr (e : Fin 4095)
deriving DecidableEq, Repr

/-- The readiness source behind a `struct file`: its `f_op->poll` calls the poll-table
callback on its wait-queue head (when it has one) and returns the ready events. -/
structure file where
  wqh : Option Nat
  revents : Nat
deriving DecidableEq, Repr

/-- Store to one work structure. -/
def set_work (works : Nat → v1000_work) (a : Nat) (v : v1000_work) : Nat → v1000_work :=
  fun x => if x = a then v else works x

/-- Store to one wait queue. -/
def set_waitq (waitq : Nat → List (Fin 2)) (q : Nat) (l : List (Fin 2)) : Nat → List (Fin 2) :=
  fun x => if x = q then l else waitq x

/-- Read `dev->rings[i]`. -/
def ring (s : State) (i : Fin 2) : v1000_ring :=
  if i = 0 then s.dev.tx_ring else s.dev.rx_ring

/-- Store to `*dev->rings[i]`. -/
def set_ring (s : State) (i : Fin 2) (r : v1000_ring) : State :=
  if i = 0 then { s with dev := { s.dev with tx_ring := r } }
  else { s with dev := { s.dev with rx_ring := r } }

/-- The values `v1000_work_init` stores: `fn`, `flushing = 0`, `queue_seq = done_seq = 0`
(the node is initialised unlinked). -/
def v1000_work_init (fn : Nat) : v1000_work :=
  { fn := fn, flushing := 0, queue_seq := 0, done_seq := 0 }

/-- Source `v1000_work_queue`: under the lock, if the node is not linked, append it to
`dev->work_list`, increment `queue_seq` and wake the worker; otherwise do nothing. -/
def v1000_work_queue (s : State) (work : Nat) : State × List Effect :=
  if work ∈ s.dev.work_list then (s, [])
  else
    ({ s with
        dev := { s.dev with work_list := s.dev.work_list ++ [work] },
        works := set_work s.works work
          { s.works work with queue_seq := u32_add (s.works work).queue_seq 1 } },
     [Effect.wake_up_process s.dev.worker])

/-- The state after `n` consecutive calls of `v1000_work_queue` on the same work. -/
def work_queue_n (s : State) (work : Nat) : Nat → State
  | 0 => s
  | n + 1 => (v1000_work_queue (work_queue_n s work n) work).1

/-- Source `v1000_work_seq_done`: `left = seq - work->done_seq` in `unsigned` arithmetic,
converted to `int`; the result is `left <= 0`. -/
def v1000_work_seq_done (s : State) (work : Nat) (seq : Nat) : Bool :=
  decide (to_int (u32_sub seq (s.works work).done_seq) ≤ 0)

/-- First critical section of source `v1000_work_flush`: snapshot `queue_seq` and increment
`flushing`.  The caller then sleeps in `wait_event` until `v1000_work_seq_done` holds for
the returned snapshot. -/
def v1000_work_flush_begin (s : State) (work : Nat) : State × Nat :=
  ({ s with
      works := set_work s.works work
        { s.works work with flushing := (s.works work).flushing + 1 } },
   (s.works work).queue_seq)

/-- Second critical section of source `v1000_work_flush`: decrement `flushing`; `BUG_ON` a
negative result (`none`: the call does not return). -/
def v1000_work_flush_end (s : State) (work : Nat) : Option State :=
  if (s.works work).flushing - 1 < 0 then none
  else
    some { s with
      works := set_work s.works work
        { s.works work with flushing := (s.works work).flushing - 1 } }

/-- Source `v1000_vr_reset`. -/
def v1000_vr_reset (vr : v1000_ring) : v1000_ring :=
  { vr with private_data := none, kick := none, call_ctx := none, call := none }

/-- Head of one iteration of the loop of source `v1000_worker`: if the local `work` is set,
store the captured `seq` into its `done_seq` and wake the flushers when `flushing` is
non-zero. -/
def worker_record_done (s : State) : State × List Effect :=
  match s.wk_work with
  | none => (s, [])
  | some w =>
    ({ s with works := set_work s.works w { s.works w with done_seq := s.wk_seq } },
     if (s.works w).flushing ≠ 0 then [Effect.wake_up_all w] else [])

/-- One iteration of the loop of source `v1000_worker`.  `should_stop` is what
`kthread_should_stop()` answers in this iteration.  The last component tells whether the
loop was left (`break`); the thread then ends, so its locals are gone and `wk_work` is reset
to the value a freshly spawned worker starts with.  The handler call `work->fn(work)` is an
effect; what a handler does to the queue is a later `v1000_work_queue` step.
`need_resched()` is not modelled. -/
def v1000_worker_iter (s : State) (should_stop : Bool) : State × List Effect × Bool :=
  let r := worker_record_done s
  if should_stop then ({ r.1 with wk_work := none }, r.2, true)
  else
    match r.1.dev.work_list with
    | w :: rest =>
      ({ r.1 with
          dev := { r.1.dev with work_list := rest },
          wk_work := some w,
          wk_seq := (r.1.works w).queue_seq },
       r.2 ++ [Effect.call_fn (r.1.works w).fn w], false)
    | [] => ({ r.1 with wk_work := none }, r.2 ++ [Effect.schedule], false)

/-- The two kinds of atomic step on the work queue. -/
inductive Event where
  | queue (work : Nat)
  | iter (should_stop : Bool)
deriving DecidableEq, Repr

/-- The state after one event. -/
def step (s : State) : Event → State
  | Event.queue w => (v1000_work_queue s w).1
  | Event.iter b => (v1000_worker_iter s b).1

/-- The state after a sequence of events (an interleaving of enqueues and worker
iterations), oldest first. -/
def run (s : State) : List Event → State
  | [] => s
  | e :: tr => run (step s e) tr

/-- A state right after initialisation: every work structure holds what `v1000_work_init`
stores, the work list is empty and the worker holds no work. -/
def Initial (s : State) : Prop :=
  s.dev.work_list = [] ∧ s.wk_work = none ∧ ∀ w, s.works w = v1000_work_init (s.works w).fn

/-- Number of `v1000_work_queue` calls on `w` in a sequence of events. -/
def enq_count (tr : List Event) (w : Nat) : Nat := tr.count (Event.queue w)

/-- Source `v1000_dev_check_owner`: `dev->mm == current->mm ? 0 : -EPERM`. -/
def v1000_dev_check_owner (s : State) (current : task_struct) : State × Int :=
  (s, if s.dev.mm = current.mm then 0 else -EPERM)

/-- The value of `PTR_ERR` on `ERR_PTR(-(e + 1))`. -/
def PTR_ERR (e : Fin 4095) : Int := -((e.val : Int) + 1)

/-- Source `v1000_dev_set_owner`.  `current` is the calling task, `get_task_mm(current)`
yields `current.mm`, and `created` is what `kthread_create` returns. -/
def v1000_dev_set_owner (s : State) (current : task_struct) (created : kthread_result) :
    State × List Effect × Int :=
  match s.dev.mm with
  | some _ => (s, [], -EBUSY)
  | none =>
    let s1 : State := { s with dev := { s.dev with mm := current.mm } }
    match created with
    | kthread_result.err_ptr e =>
      ({ s1 with dev := { s1.dev with mm := none } },
       [Effect.get_task_mm current.mm, Effect.kthread_create false] ++
         (match s1.dev.mm with
          | some m => [Effect.mmput m]
          | none => []),
       PTR_ERR e)
    | kthread_result.task t =>
      ({ s1 with dev := { s1.dev with worker := some t } },
       [Effect.get_task_mm current.mm, Effect.kthread_create true,
        Effect.wake_up_process (some t)],
       0)

/-- The releases source `v1000_dev_cleanup` performs for one ring, in program order. -/
def ring_put (r : v1000_ring) : List Effect :=
  (match r.kick with
   | some f => [Effect.fput f]
   | none => []) ++
  (match r.call_ctx with
   | some c => [Effect.eventfd_ctx_put c]
   | none => []) ++
  (match r.call with
   | some f => [Effect.fput f]
   | none => [])

/-- The `for` loop of source `v1000_dev_cleanup`: release and reset both rings. -/
def cleanup_rings (s : State) : State × List Effect :=
  ({ s with dev := { s.dev with
      tx_ring := v1000_vr_reset s.dev.tx_ring,
      rx_ring := v1000_vr_reset s.dev.rx_ring } },
   ring_put s.dev.tx_ring ++ ring_put s.dev.rx_ring)

/-- Source `v1000_dev_cleanup`, `kfree(dev->memory); dev->memory = NULL`. -/
def cleanup_memory (s : State) : State × List Effect :=
  ({ s with dev := { s.dev with memory := none } }, [Effect.kfree s.dev.memory])

/-- Source `v1000_dev_cleanup`, `WARN_ON(!list_empty(&dev->work_list))`: a warning is
printed and execution continues. -/
def cleanup_warn (s : State) : State × List Effect :=
  (s, if s.dev.work_list ≠ [] then [Effect.WARN] else [])

/-- Source `v1000_dev_cleanup`, `if (dev->worker) { kthread_stop; dev->worker = NULL }`. -/
def cleanup_worker (s : State) : State × List Effect :=
  ({ s with dev := { s.dev with worker := none } },
   match s.dev.worker with
   | some t => [Effect.kthread_stop t]
   | none => [])

/-- Source `v1000_dev_cleanup`, `if (dev->mm) mmput(dev->mm); dev->mm = NULL`. -/
def cleanup_mm (s : State) : State × List Effect :=
  ({ s with dev := { s.dev with mm := none } },
   match s.dev.mm with
   | some m => [Effect.mmput m]
   | none => [])

/-- Source `v1000_dev_cleanup`: the five parts above, in program order. -/
def v1000_dev_cleanup (s : State) : State × List Effect :=
  let r1 := cleanup_rings s
  let r2 := cleanup_memory r1.1
  let r3 := cleanup_warn r2.1
  let r4 := cleanup_worker r3.1
  let r5 := cleanup_mm r4.1
  (r5.1, r1.2 ++ r2.2 ++ r3.2 ++ r4.2 ++ r5.2)

/-- The state in which source `v1000_dev_cleanup` executes `kfree(dev->memory)`. -/
def cleanup_state_at_kfree (s : State) : State := (cleanup_rings s).1

/-- The file handles held by the rings (`kick` and `call` of both). -/
def file_handles (s : State) : List (Option Nat) :=
  [s.dev.tx_ring.kick, s.dev.tx_ring.call, s.dev.rx_ring.kick, s.dev.rx_ring.call]

/-- The eventfd contexts held by the rings (`call_ctx` of both). -/
def ctx_handles (s : State) : List (Option Nat) :=
  [s.dev.tx_ring.call_ctx, s.dev.rx_ring.call_ctx]

/-- Source `v1000_poll_func`, the poll-table callback for the adapter of ring `i`:
`poll->wqh = wqh; add_wait_queue(wqh, &poll->wait)`. -/
def v1000_poll_func (s : State) (i : Fin 2) (wqh : Nat) : State × List Effect :=
  let s1 := set_ring s i { ring s i with poll := { (ring s i).poll with wqh := some wqh } }
  ({ s1 with waitq := set_waitq s1.waitq wqh (i :: s1.waitq wqh) },
   [Effect.add_wait_queue wqh i])

/-- Source `v1000_poll_queue`. -/
def v1000_poll_queue (s : State) (i : Fin 2) : State × List Effect :=
  v1000_work_queue s (ring s i).poll.work

/-- Source `v1000_poll_wakeup` for the adapter of ring `i`, called with `key`. -/
def v1000_poll_wakeup (s : State) (i : Fin 2) (key : Nat) : State × List Effect × Int :=
  if key &&& (ring s i).poll.mask = 0 then (s, [], 0)
  else ((v1000_poll_queue s i).1, (v1000_poll_queue s i).2, 0)

/-- The call `file->f_op->poll(file, &poll->table)` made by source `v1000_poll_start`. -/
def file_poll (s : State) (i : Fin 2) (f : file) : State × List Effect × Nat :=
  match f.wqh with
  | some q => ((v1000_poll_func s i q).1, (v1000_poll_func s i q).2, f.revents)
  | none => (s, [], f.revents)

/-- The call `remove_wait_queue(wqh, &poll->wait)` for the adapter of ring `i`. -/
def remove_wait_queue (s : State) (wqh : Nat) (i : Fin 2) : State :=
  { s with waitq := set_waitq s.waitq wqh ((s.waitq wqh).erase i) }

/-- Source `v1000_poll_start` for the adapter of ring `i`. -/
def v1000_poll_start (s : State) (i : Fin 2) (f : file) : State × List Effect × Int :=
  let r1 := file_poll s i f
  let mask := r1.2.2
  let r2 : State × List Effect :=
    if mask ≠ 0 then ((v1000_poll_wakeup r1.1 i mask).1, (v1000_poll_wakeup r1.1 i mask).2.1)
    else (r1.1, [])
  if mask &&& POLLERR ≠ 0 then
    match (ring r2.1 i).poll.wqh with
    | some q =>
      (remove_wait_queue r2.1 q i, r1.2.1 ++ r2.2 ++ [Effect.remove_wait_queue q i], -EINVAL)
    | none => (r2.1, r1.2.1 ++ r2.2, -EINVAL)
  else (r2.1, r1.2.1 ++ r2.2, 0)

/-- Source `v1000_poll_stop` for the adapter of ring `i`. -/
def v1000_poll_stop (s : State) (i : Fin 2) : State × List Effect :=
  match (ring s i).poll.wqh with
  | some q =>
    (set_ring (remove_wait_queue s q i) i
        { ring s i with poll := { (ring s i).poll with wqh := none } },
     [Effect.remove_wait_queue q i])
  | none => (s, [])

/-- Ghost invariant of one work `w`: `Q` counts its effective enqueues and `D` its recorded
completions, both without wrap-around.  The counters hold `Q` and `D` modulo `2 ^ 32`; `Q`
exceeds `D` by one when the work is linked and by one more when it is the work the worker
has taken and not yet recorded, in which case the captured `seq` is `D + 1`. -/
def seq_inv (s : State) (w Q D : Nat) : Prop :=
  (s.works w).queue_seq = Q % 4294967296
  ∧ (s.works w).done_seq = D % 4294967296
  ∧ s.dev.work_list.Nodup
  ∧ Q = D + (if s.wk_work = some w then 1 else 0) + (if w ∈ s.dev.work_list then 1 else 0)
  ∧ (s.wk_work = some w → s.wk_seq = (D + 1) % 4294967296)

/-- A ring with nothing attached, whose adapter uses the work at address `a`. -/
def idle_ring (a : Nat) : v1000_ring :=
  { private_data := none, kick := none, call_ctx := none, call := none, handle_kick := none,
    poll := { mask := POLLIN, wqh := none, work := a } }

/-- A freshly initialised machine: no owner, empty work list, every work as
`v1000_work_init` leaves it, nothing on any wait queue. -/
def boot : State :=
  { dev := { tx_ring := idle_ring 0, rx_ring := idle_ring 1, memory := none, mm := none,
             work_list := [], worker := none },
    works := fun _ => v1000_work_init 0,
    waitq := fun _ => [],
    wk_work := none,
    wk_seq := 0 }

/-- One full round on work `0`: enqueue it, let the worker take and run it, let the worker
record its completion. -/
def round : List Event := [Event.queue 0, Event.iter false, Event.iter false]

/-- The events of `n` rounds in a row. -/
def rounds : Nat → List Event
  | 0 => []
  | n + 1 => round ++ rounds n

/-- The state between rounds on work `0` after `k` of them. -/
def between_rounds (s : State) (k : Nat) : Prop :=
  s.dev.work_list = [] ∧ s.wk_work = none
  ∧ (s.works 0).queue_seq = k % 4294967296 ∧ (s.works 0).done_seq = k % 4294967296

/-- A work that was enqueued `2 ^ 32 - 1` times and waits in the list for its last run. -/
def snap_state : State :=
  { boot with
    dev := { boot.dev with work_list := [0] },
    works := fun _ => { fn := 0, flushing := 0, queue_seq := 4294967295, done_seq := 4294967294 } }

/-- The snapshot `v1000_work_flush` takes in `snap_state`. -/
def snap_seq : Nat := (v1000_work_flush_begin snap_state 0).2

/-- The state a flusher that took `snap_seq` may find when it evaluates its wait condition:
the worker ran the work, the work was enqueued once more, and the worker ran it again. -/
def late_state : State :=
  run (v1000_work_flush_begin snap_state 0).1
    [Event.iter false, Event.queue 0, Event.iter false, Event.iter false]

/-- The state in which the flusher that took `snap_seq` is released: the worker took the
work and recorded its completion. -/
def done_state : State :=
  run (v1000_work_flush_begin snap_state 0).1 [Event.iter false, Event.iter false]

/-- A calling task with an address space (a user process). -/
def user_task : task_struct := { mm := some 100, pid := 1 }

/-- A calling task without an address space (a kernel thread). -/
def kernel_task : task_struct := { mm := none, pid := 2 }

/-- An owned device with a worker, a memory table and handles on both rings. -/
def owned_state : State :=
  { boot with
    dev := { tx_ring := { idle_ring 0 with kick := some 10, call_ctx := some 11, call := some 12,
                                            private_data := some 13, handle_kick := some 1 },
             rx_ring := { idle_ring 1 with kick := some 20, call := some 12 },
             memory := some 3, mm := some 100, work_list := [], worker := some 7 } }

/-- The owned device with one work still queued. -/
def queued_state : State :=
  { owned_state with dev := { owned_state.dev with work_list := [0] } }

/-- A file whose poll operation registers the caller on wait-queue head `5` and reports
`POLLERR`. -/
def err_file : file := { wqh := some 5, revents := POLLERR }

/-- The event masks `a` and `b` have a bit in common. -/
def common_bit (a b : Nat) : Prop := ∃ n, a.testBit n = true ∧ b.testBit n = true

/-- A file whose poll operation registers the caller on wait-queue head `5` and reports
`POLLIN | POLLERR` (what an eventfd whose counter is saturated reports). -/
def ready_err_file : file := { wqh := some 5, revents := 9 }

/-- A file whose poll operation registers the caller on wait-queue head `5` and reports
`POLLIN`. -/
def ready_file : file := { wqh := some 5, revents := POLLIN }

/-- The adapter of ring `0` of a fresh machine after a successful `v1000_poll_start`. -/
def registered_state : State := (v1000_poll_start boot 0 ready_file).1

/-- The state after `v1000_work_queue` has been called on each work of a list, in order. -/
def work_queue_all (s : State) : List Nat → State
  | [] => s
  | w :: ws => work_queue_all (v1000_work_queue s w).1 ws

/-- The state and the effects, in order, of `n` successive iterations of the loop of
`v1000_worker` during which `kthread_should_stop()` stays false. -/
def worker_iters (s : State) : Nat → State × List Effect
  | 0 => (s, [])
  | n + 1 =>
    ((worker_iters (v1000_worker_iter s false).1 n).1,
     (v1000_worker_iter s false).2.1 ++ (worker_iters (v1000_worker_iter s false).1 n).2)

/-- The handler calls in a log of effects, in order: handler and work of each. -/
def handler_calls : List Effect → List (Nat × Nat)
  | [] => []
  | Effect.call_fn fn w :: l => (fn, w) :: handler_calls l
  | _ :: l => handler_calls l

/-- Source `v1000_poll_init` for the adapter of ring `i`: store the mask, clear `wqh` and
initialise the embedded work with `v1000_work_init`. -/
def v1000_poll_init (s : State) (i : Fin 2) (fn : Nat) (mask : Nat) : State :=
  { set_ring s i { ring s i with poll := { (ring s i).poll with mask := mask, wqh := none } } with
    works := set_work s.works (ring s i).poll.work (v1000_work_init fn) }

/-- Body of the `for` loop of source `v1000_dev_init` for ring `i`: reset the ring and, if
it has a handler, initialise its adapter with mask `POLLIN`. -/
def dev_init_ring (s : State) (i : Fin 2) : State :=
  match (ring s i).handle_kick with
  | some fn => v1000_poll_init (set_ring s i (v1000_vr_reset (ring s i))) i fn POLLIN
  | none => set_ring s i (v1000_vr_reset (ring s i))

/-- Source `v1000_dev_init`: wire the two rings into the device, clear `memory`, `mm`, the
work list and `worker`, then run the loop over both rings.  It returns `0`. -/
def v1000_dev_init (s : State) (tx_ring rx_ring : v1000_ring) : State × Int :=
  (dev_init_ring
    (dev_init_ring
      { s with dev := { tx_ring := tx_ring, rx_ring := rx_ring, memory := none, mm := none,
                        work_list := [], worker := none } } 0) 1,
   0)

/-- The effects of one event. -/
def step_log (s : State) : Event → List Effect
  | Event.queue w => (v1000_work_queue s w).2
  | Event.iter b => (v1000_worker_iter s b).2.1

/-- The effects of a sequence of events, in order. -/
def run_log (s : State) : List Event → List Effect
  | [] => []
  | e :: tr => step_log s e ++ run_log (step s e) tr

/-- Source `v1000_work_flush`.  `env` is what the other threads (the worker, the enqueuers)
do between the first critical section and the moment the caller, sleeping in `wait_event`,
evaluates `v1000_work_seq_done`; the call goes on to its second critical section only if the
condition holds then (`none`: it has not returned, or `BUG_ON` fired). -/
def v1000_work_flush (s : State) (work : Nat) (env : List Event) : Option State :=
  if v1000_work_seq_done (run (v1000_work_flush_begin s work).1 env) work
      (v1000_work_flush_begin s work).2
  then v1000_work_flush_end (run (v1000_work_flush_begin s work).1 env) work
  else none

/-- Source `v1000_poll_flush` for the adapter of ring `i`. -/
def v1000_poll_flush (s : State) (i : Fin 2) (env : List Event) : Option State :=
  v1000_work_flush s (ring s i).poll.work env

/-- Body of the `for` loop of source `v1000_dev_stop` for ring `i`: if the ring has a kick
file and a handler, stop its adapter and flush its work. -/
def dev_stop_ring (s : State) (i : Fin 2) (env : List Event) : Option State :=
  if (ring s i).kick.isSome && (ring s i).handle_kick.isSome then
    v1000_poll_flush (v1000_poll_stop s i).1 i env
  else some s

/-- Source `v1000_dev_stop`: the loop body for ring `0`, then for ring `1`.  `env0` and
`env1` are what the other threads do while the caller waits in the flush of ring `0` and of
ring `1`. -/
def v1000_dev_stop (s : State) (env0 env1 : List Event) : Option State :=
  match dev_stop_ring s 0 env0 with
  | none => none
  | some s1 => dev_stop_ring s1 1 env1

/-- A fresh machine whose ring `0` has a kick file and a handler and whose adapter is
registered on wait-queue head `5`. -/
def armed_state : State :=
  { boot with
    dev := { boot.dev with
      tx_ring := { idle_ring 0 with kick := some 10, handle_kick := some 1,
                                    poll := { mask := POLLIN, wqh := some 5, work := 0 } } },
    waitq := set_waitq (fun _ => []) 5 [0] }

/-- The state in which `v1000_dev_stop` returns when it is called on the armed machine with
the work of ring `0` queued and the worker runs two iterations during the flush. -/
def stopped_state : State :=
  match v1000_dev_stop (run armed_state [Event.queue 0])
      [Event.iter false, Event.iter false] [] with
  | some t => t
  | none => boot

theorem work_queue_linked (s : State) (w : Nat) (h : w ∈ s.dev.work_list) :
    v1000_work_queue s w = (s, []) := by
  simp [v1000_work_queue, h]

theorem work_queue_mem (s : State) (w : Nat) :
    w ∈ (v1000_work_queue s w).1.dev.work_list := by
  by_cases h : w ∈ s.dev.work_list
  · simp [v1000_work_queue, h]
  · simp [v1000_work_queue, h]

theorem work_queue_n_succ (s : State) (w : Nat) (n : Nat) :
    work_queue_n s w (n + 1) = (v1000_work_queue s w).1 := by
  induction n with
  | zero => rfl
  | succ k ih =>
    have hm : w ∈ (work_queue_n s w (k + 1)).dev.work_list := by
      rw [ih]; exact work_queue_mem s w
    show (v1000_work_queue (work_queue_n s w (k + 1)) w).1 = _
    rw [work_queue_linked _ w hm]
    exact ih

/-- C1. Coalescing: when the work is not linked in `dev->work_list`, after `N ≥ 1`
consecutive calls of `v1000_work_queue` on it the list holds it exactly once (it is the old
list with the work appended), `queue_seq` has advanced by exactly one step of the 32-bit
counter (not `N`), and each of the calls `2..N` returns the state it was given and wakes
nobody. -/
theorem C1_coalescing (s : State) (w N : Nat) (hw : w ∉ s.dev.work_list) (hN : 1 ≤ N) :
    (work_queue_n s w N).dev.work_list = s.dev.work_list ++ [w]
    ∧ (work_queue_n s w N).dev.work_list.count w = 1
    ∧ ((work_queue_n s w N).works w).queue_seq = u32_add (s.works w).queue_seq 1
    ∧ u32_sub ((work_queue_n s w N).works w).queue_seq (s.works w).queue_seq = 1
    ∧ (∀ k, 1 ≤ k → k < N →
        v1000_work_queue (work_queue_n s w k) w = (work_queue_n s w k, [])
        ∧ work_queue_n s w (k + 1) = work_queue_n s w 1) := by
  obtain ⟨n, rfl⟩ : ∃ n, N = n + 1 := ⟨N - 1, by omega⟩
  rw [work_queue_n_succ]
  have hc : List.count w s.dev.work_list = 0 := List.count_eq_zero.mpr hw
  refine ⟨?_, ?_, ?_, ?_, ?_⟩
  · simp [v1000_work_queue, hw]
  · simp [v1000_work_queue, hw, hc]
  · simp [v1000_work_queue, hw, set_work]
  · simp only [v1000_work_queue, hw, set_work, if_false, if_true, u32_add, u32_sub]
    omega
  · intro k hk _
    obtain ⟨j, rfl⟩ : ∃ j, k = j + 1 := ⟨k - 1, by omega⟩
    refine ⟨?_, ?_⟩
    · rw [work_queue_n_succ]
      exact work_queue_linked _ w (work_queue_mem s w)
    · rw [work_queue_n_succ, work_queue_n_succ]

theorem C1_coalescing_witness :
    ((0 : Nat) ∉ boot.dev.work_list ∧ 1 ≤ 3)
    ∧ ((work_queue_n boot 0 3).dev.work_list = boot.dev.work_list ++ [0]
      ∧ (work_queue_n boot 0 3).dev.work_list.count 0 = 1
      ∧ ((work_queue_n boot 0 3).works 0).queue_seq = u32_add (boot.works 0).queue_seq 1
      ∧ u32_sub ((work_queue_n boot 0 3).works 0).queue_seq (boot.works 0).queue_seq = 1
      ∧ (∀ k, 1 ≤ k → k < 3 →
          v1000_work_queue (work_queue_n boot 0 k) 0 = (work_queue_n boot 0 k, [])
          ∧ work_queue_n boot 0 (k + 1) = work_queue_n boot 0 1)) :=
  ⟨⟨by decide, by decide⟩, C1_coalescing boot 0 3 (by decide) (by decide)⟩

theorem run_append (s : State) (a b : List Event) : run s (a ++ b) = run (run s a) b := by
  induction a generalizing s with
  | nil => rfl
  | cons e a ih => exact ih (step s e)

theorem record_done_dev (s : State) : (worker_record_done s).1.dev = s.dev := by
  unfold worker_record_done; split <;> rfl

theorem record_done_wk_work (s : State) : (worker_record_done s).1.wk_work = s.wk_work := by
  unfold worker_record_done; split <;> rfl

theorem record_done_wk_seq (s : State) : (worker_record_done s).1.wk_seq = s.wk_seq := by
  unfold worker_record_done; split <;> rfl

theorem record_done_queue_seq (s : State) (w : Nat) :
    ((worker_record_done s).1.works w).queue_seq = (s.works w).queue_seq := by
  unfold worker_record_done
  split
  · rfl
  · rename_i v _
    by_cases h : w = v
    · subst h; simp [set_work]
    · simp [set_work, h]

theorem record_done_done_seq (s : State) (w : Nat) :
    ((worker_record_done s).1.works w).done_seq
      = if s.wk_work = some w then s.wk_seq else (s.works w).done_seq := by
  unfold worker_record_done
  split
  · rename_i hk
    simp [hk]
  · rename_i v hk
    by_cases h : w = v
    · subst h; simp [set_work, hk]
    · have h2 : ¬ v = w := fun e => h e.symm
      simp [set_work, h, h2, hk]

theorem seq_inv_queue (s : State) (w v Q D : Nat) (h : seq_inv s w Q D) :
    ∃ Q1, seq_inv (v1000_work_queue s v).1 w Q1 D ∧ Q1 ≤ Q + (if v = w then 1 else 0) ∧ Q ≤ Q1 := by
  obtain ⟨hq, hd, hn, hc, hs⟩ := h
  by_cases hv : v ∈ s.dev.work_list
  · refine ⟨Q, ?_, by omega, le_refl Q⟩
    rw [work_queue_linked s v hv]
    exact ⟨hq, hd, hn, hc, hs⟩
  · have hnd : (s.dev.work_list ++ [v]).Nodup := by
      rw [List.nodup_append]
      refine ⟨hn, List.nodup_singleton v, ?_⟩
      intro a ha hb
      rw [List.mem_singleton] at hb
      subst hb
      exact hv ha
    by_cases hvw : v = w
    · subst hvw
      refine ⟨Q + 1, ?_, by simp, Nat.le_succ Q⟩
      refine ⟨?_, ?_, ?_, ?_, ?_⟩
      · simp only [v1000_work_queue, hv, if_false, set_work, if_true, u32_add]
        rw [hq]; omega
      · simp [v1000_work_queue, hv, set_work, hd]
      · simpa [v1000_work_queue, hv] using hnd
      · simp only [v1000_work_queue, hv, if_false, List.mem_append, List.mem_singleton,
          or_true, if_true]
        simp only [hv, if_false] at hc
        omega
      · simpa [v1000_work_queue, hv] using hs
    · have hwv : ¬ w = v := fun e => hvw e.symm
      refine ⟨Q, ?_, by omega, le_refl Q⟩
      refine ⟨?_, ?_, ?_, ?_, ?_⟩
      · simp [v1000_work_queue, hv, set_work, hwv, hq]
      · simp [v1000_work_queue, hv, set_work, hwv, hd]
      · simpa [v1000_work_queue, hv] using hnd
      · simp only [v1000_work_queue, hv, if_false, List.mem_append, List.mem_singleton,
          hwv, or_false]
        exact hc
      · simpa [v1000_work_queue, hv] using hs

theorem seq_inv_iter (s : State) (b : Bool) (w Q D : Nat) (h : seq_inv s w Q D) :
    ∃ D1, seq_inv (v1000_worker_iter s b).1 w Q D1 ∧ D ≤ D1 := by
  obtain ⟨hq, hd, hn, hc, hs⟩ := h
  have e1 := record_done_dev s
  have e2 := record_done_wk_work s
  have e4 := record_done_queue_seq s
  have e5 := record_done_done_seq s w
  refine ⟨D + (if s.wk_work = some w then 1 else 0), ?_, Nat.le_add_right _ _⟩
  have hdone : ((worker_record_done s).1.works w).done_seq
      = (D + (if s.wk_work = some w then 1 else 0)) % 4294967296 := by
    rw [e5]
    by_cases hk : s.wk_work = some w
    · simp only [hk, if_true]; exact hs hk
    · simp only [hk, if_false]; exact hd
  cases b with
  | true =>
    refine ⟨?_, ?_, ?_, ?_, ?_⟩
    · simp only [v1000_worker_iter, if_true]; rw [e4, hq]
    · simp only [v1000_worker_iter, if_true]; exact hdone
    · simp only [v1000_worker_iter, if_true]; rw [e1]; exact hn
    · simp only [v1000_worker_iter, if_true]; rw [e1]
      simp only [reduceCtorEq, if_false]
      omega
    · simp [v1000_worker_iter]
  | false =>
    cases hl : s.dev.work_list with
    | nil =>
      have hl1 : (worker_record_done s).1.dev.work_list = [] := by rw [e1]; exact hl
      refine ⟨?_, ?_, ?_, ?_, ?_⟩
      · simp only [v1000_worker_iter, hl1, Bool.false_eq_true, if_false]; rw [e4, hq]
      · simp only [v1000_worker_iter, hl1, Bool.false_eq_true, if_false]; exact hdone
      · simp only [v1000_worker_iter, hl1, Bool.false_eq_true, if_false]
        exact List.nodup_nil
      · simp only [v1000_worker_iter, hl1, Bool.false_eq_true, if_false]
        simp only [reduceCtorEq, if_false]
        rw [hl] at hc
        simp only [List.not_mem_nil, if_false] at hc ⊢
        omega
      · simp [v1000_worker_iter, hl1]
    | cons x rest =>
      have hl1 : (worker_record_done s).1.dev.work_list = x :: rest := by rw [e1]; exact hl
      rw [hl] at hn hc
      have hx : x ∉ rest := (List.nodup_cons.mp hn).1
      have hr : rest.Nodup := (List.nodup_cons.mp hn).2
      refine ⟨?_, ?_, ?_, ?_, ?_⟩
      · simp only [v1000_worker_iter, hl1, Bool.false_eq_true, if_false]; rw [e4, hq]
      · simp only [v1000_worker_iter, hl1, Bool.false_eq_true, if_false]; exact hdone
      · simp only [v1000_worker_iter, hl1, Bool.false_eq_true, if_false]; exact hr
      · simp only [v1000_worker_iter, hl1, Bool.false_eq_true, if_false]
        by_cases hxw : x = w
        · subst hxw
          simp only [List.mem_cons, true_or, if_true] at hc
          simp only [hx, if_false, if_true]
          omega
        · have hwx : ¬ w = x := fun e => hxw e.symm
          simp only [List.mem_cons, hwx, false_or] at hc
          simp only [Option.some.injEq, hxw, if_false]
          omega
      · simp only [v1000_worker_iter, hl1, Bool.false_eq_true, if_false]
        intro hk
        simp only [Option.some.injEq] at hk
        subst hk
        rw [e4, hq]
        simp only [List.mem_cons, true_or, if_true] at hc
        congr 1

theorem seq_inv_run (tr : List Event) (s : State) (w Q D : Nat) (h : seq_inv s w Q D) :
    ∃ Q1 D1, seq_inv (run s tr) w Q1 D1 ∧ Q1 ≤ Q + enq_count tr w ∧ Q ≤ Q1 ∧ D ≤ D1 := by
  induction tr generalizing s Q D with
  | nil => exact ⟨Q, D, h, by omega, le_refl Q, le_refl D⟩
  | cons e tr ih =>
    cases e with
    | queue v =>
      obtain ⟨Q1, h1, hle, hge⟩ := seq_inv_queue s w v Q D h
      obtain ⟨Q2, D2, h2, hle2, hge2, hd2⟩ := ih (step s (Event.queue v)) Q1 D h1
      refine ⟨Q2, D2, h2, ?_, by omega, hd2⟩
      have hcnt : enq_count (Event.queue v :: tr) w
          = enq_count tr w + (if v = w then 1 else 0) := by
        simp [enq_count, List.count_cons]
      rw [hcnt]; omega
    | iter b =>
      obtain ⟨D1, h1, hd1⟩ := seq_inv_iter s b w Q D h
      obtain ⟨Q2, D2, h2, hle2, hge2, hd2⟩ := ih (step s (Event.iter b)) Q D1 h1
      refine ⟨Q2, D2, h2, ?_, hge2, by omega⟩
      have hcnt : enq_count (Event.iter b :: tr) w = enq_count tr w := by
        simp [enq_count, List.count_cons]
      rw [hcnt]; exact hle2

theorem seq_inv_initial (s : State) (w : Nat) (h : Initial s) : seq_inv s w 0 0 := by
  obtain ⟨hl, hk, hw⟩ := h
  refine ⟨?_, ?_, ?_, ?_, ?_⟩
  · rw [hw w]; rfl
  · rw [hw w]; rfl
  · rw [hl]; exact List.nodup_nil
  · simp [hl, hk]
  · simp [hk]

theorem between_rounds_round (s : State) (k : Nat) (h : between_rounds s k) :
    between_rounds (run s round) (k + 1) := by
  obtain ⟨hl, hk, hq, hd⟩ := h
  have h0 : (0 : Nat) ∉ s.dev.work_list := by rw [hl]; exact List.not_mem_nil 0
  refine ⟨?_, ?_, ?_, ?_⟩ <;>
    simp [round, run, step, v1000_work_queue, v1000_worker_iter, worker_record_done,
      set_work, hl, hk, hq, u32_add]

theorem between_rounds_rounds (n : Nat) (s : State) (k : Nat) (h : between_rounds s k) :
    between_rounds (run s (rounds n)) (k + n) := by
  induction n generalizing s k with
  | zero => exact h
  | succ n ih =>
    have h1 := ih (run s round) (k + 1) (between_rounds_round s k h)
    have e : k + (n + 1) = k + 1 + n := by omega
    rw [e]
    show between_rounds (run s (round ++ rounds n)) (k + 1 + n)
    rw [run_append]
    exact h1

theorem to_int_nonpos (x : Nat) (h : x < 4294967296) :
    to_int x ≤ 0 ↔ x = 0 ∨ 2147483648 ≤ x := by
  unfold to_int
  rw [Nat.mod_eq_of_lt h]
  split <;> omega

theorem u32_sub_lt (a b : Nat) : u32_sub a b < 4294967296 := by
  unfold u32_sub
  omega

/-- The release condition of `v1000_work_flush` is the wrap-aware comparison: it holds
exactly when `done_seq` is at most `2 ^ 31` steps of the 32-bit counter past `seq`. -/
theorem seq_done_iff (s : State) (w seq : Nat) :
    v1000_work_seq_done s w seq = true ↔ u32_sub (s.works w).done_seq seq ≤ 2147483648 := by
  unfold v1000_work_seq_done
  rw [decide_eq_true_iff, to_int_nonpos _ (u32_sub_lt _ _)]
  unfold u32_sub
  omega

/-- C2 (as amended). In every state reached from an initial state by any interleaving of
`v1000_work_queue` calls and `v1000_worker` iterations, every work has `queue_seq` at most
two steps of the 32-bit counter ahead of `done_seq`, and `done_seq ≤ queue_seq` holds unless
the work has been enqueued `2 ^ 32` times or more. -/
theorem C2_seq_invariant (s0 : State) (tr : List Event) (w : Nat) (h0 : Initial s0) :
    u32_sub ((run s0 tr).works w).queue_seq ((run s0 tr).works w).done_seq ≤ 2
    ∧ (((run s0 tr).works w).done_seq ≤ ((run s0 tr).works w).queue_seq
        ∨ 4294967296 ≤ enq_count tr w) := by
  obtain ⟨Q, D, ⟨hq, hd, _, hc, _⟩, hle, _, _⟩ :=
    seq_inv_run tr s0 w 0 0 (seq_inv_initial s0 w h0)
  rw [hq, hd]
  have hgap : Q ≤ D + 2 ∧ D ≤ Q := by
    split at hc <;> split at hc <;> omega
  refine ⟨?_, ?_⟩
  · unfold u32_sub; omega
  · by_cases hbig : 4294967296 ≤ enq_count tr w
    · exact Or.inr hbig
    · left
      have hQ : Q < 4294967296 := by omega
      rw [Nat.mod_eq_of_lt hQ, Nat.mod_eq_of_lt (by omega)]
      exact hgap.2

theorem C2_seq_invariant_witness :
    Initial boot
    ∧ (u32_sub ((run boot [Event.queue 0, Event.iter false]).works 0).queue_seq
          ((run boot [Event.queue 0, Event.iter false]).works 0).done_seq ≤ 2
      ∧ (((run boot [Event.queue 0, Event.iter false]).works 0).done_seq
            ≤ ((run boot [Event.queue 0, Event.iter false]).works 0).queue_seq
          ∨ 4294967296 ≤ enq_count [Event.queue 0, Event.iter false] 0)) :=
  ⟨⟨rfl, rfl, fun _ => rfl⟩,
   C2_seq_invariant boot [Event.queue 0, Event.iter false] 0 ⟨rfl, rfl, fun _ => rfl⟩⟩

theorem run_snoc (s : State) (tr : List Event) (e : Event) :
    run s (tr ++ [e]) = step (run s tr) e := by
  rw [run_append]; rfl

theorem queue_between_rounds (s : State) (k : Nat) (h : between_rounds s k) :
    ((step s (Event.queue 0)).works 0).queue_seq = u32_add (k % 4294967296) 1
    ∧ ((step s (Event.queue 0)).works 0).done_seq = k % 4294967296 := by
  obtain ⟨hl, _, hq, hd⟩ := h
  have h0 : (0 : Nat) ∉ s.dev.work_list := by rw [hl]; exact List.not_mem_nil 0
  refine ⟨?_, ?_⟩
  · simp only [step, v1000_work_queue, h0, if_false, set_work, if_true]
    rw [hq]
  · simp only [step, v1000_work_queue, h0, if_false, set_work, if_true]
    rw [hd]

/-- C2 (as stated) fails: after `2 ^ 32 - 1` full rounds on work `0` followed by one more
enqueue, `queue_seq` has wrapped to `0` while `done_seq` is `2 ^ 32 - 1`. -/
theorem C2_wrap_counterexample :
    Initial boot
    ∧ ((run boot (rounds 4294967295 ++ [Event.queue 0])).works 0).queue_seq = 0
    ∧ ((run boot (rounds 4294967295 ++ [Event.queue 0])).works 0).done_seq = 4294967295
    ∧ ¬ ((run boot (rounds 4294967295 ++ [Event.queue 0])).works 0).done_seq
          ≤ ((run boot (rounds 4294967295 ++ [Event.queue 0])).works 0).queue_seq := by
  have hb : between_rounds boot 0 := ⟨rfl, rfl, rfl, rfl⟩
  obtain ⟨hq, hd⟩ := queue_between_rounds _ _ (between_rounds_rounds 4294967295 boot 0 hb)
  rw [← run_snoc] at hq hd
  have hq0 : u32_add ((0 + 4294967295) % 4294967296) 1 = 0 := by decide
  have hd0 : (0 + 4294967295) % 4294967296 = 4294967295 := by decide
  rw [hq0] at hq
  rw [hd0] at hd
  refine ⟨⟨rfl, rfl, fun _ => rfl⟩, hq, hd, ?_⟩
  rw [hq, hd]
  omega

/-- C3 (as amended). When the snapshot `S` is less than `2 ^ 31` ahead of the work's
`done_seq`, the condition that releases the wait of `v1000_work_flush` is true only if
`done_seq ≥ S`. -/
theorem C3_seq_done_sound (s : State) (w S : Nat)
    (hwin : S < (s.works w).done_seq + 2147483648)
    (hrel : v1000_work_seq_done s w S = true) :
    (s.works w).done_seq ≥ S := by
  rw [seq_done_iff] at hrel
  unfold u32_sub at hrel
  omega

theorem C3_seq_done_sound_witness :
    (snap_seq < (done_state.works 0).done_seq + 2147483648
      ∧ v1000_work_seq_done done_state 0 snap_seq = true)
    ∧ (done_state.works 0).done_seq ≥ snap_seq :=
  ⟨⟨by decide, by decide⟩, C3_seq_done_sound done_state 0 snap_seq (by decide) (by decide)⟩

/-- C3 (as stated) fails: a flusher whose snapshot is `2 ^ 32 - 1` finds its wait condition
true in a state where the counter has wrapped and `done_seq` is `0`. -/
theorem C3_wrap_counterexample :
    snap_seq = 4294967295
    ∧ (late_state.works 0).done_seq = 0
    ∧ v1000_work_seq_done late_state 0 snap_seq = true
    ∧ ¬ (late_state.works 0).done_seq ≥ snap_seq := by
  decide

/-- C4 (as amended). Ownership exclusivity for a caller that has an address space: if
`v1000_dev_set_owner` returns success for such a caller, then a further call, by any caller
and whatever `kthread_create` would return, in any state whose `dev->mm` is still the one
the first call left, returns `-EBUSY`, performs no call at all (no second worker is created)
and leaves the state as it was (the context is not rebound). -/
theorem C4_set_owner_exclusive (s s2 : State) (cur1 cur2 : task_struct)
    (c1 c2 : kthread_result)
    (hmm : cur1.mm ≠ none)
    (hok : (v1000_dev_set_owner s cur1 c1).2.2 = 0)
    (hsame : s2.dev.mm = (v1000_dev_set_owner s cur1 c1).1.dev.mm) :
    v1000_dev_set_owner s2 cur2 c2 = (s2, [], -EBUSY) := by
  obtain ⟨m, hm⟩ : ∃ m, cur1.mm = some m := Option.ne_none_iff_exists'.mp hmm
  have h2 : s2.dev.mm = some m := by
    rw [hsame]
    unfold v1000_dev_set_owner at hok ⊢
    cases hs : s.dev.mm with
    | some x => simp [hs, EBUSY] at hok
    | none =>
      cases c1 with
      | err_ptr e =>
        simp only [hs, PTR_ERR] at hok
        omega
      | task t => simp [hm]
  unfold v1000_dev_set_owner
  simp [h2]

theorem C4_set_owner_exclusive_witness :
    (user_task.mm ≠ none
      ∧ (v1000_dev_set_owner boot user_task (kthread_result.task 7)).2.2 = 0)
    ∧ v1000_dev_set_owner (v1000_dev_set_owner boot user_task (kthread_result.task 7)).1
          kernel_task (kthread_result.task 8)
        = ((v1000_dev_set_owner boot user_task (kthread_result.task 7)).1, [], -EBUSY) :=
  ⟨⟨by decide, by decide⟩,
   C4_set_owner_exclusive boot (v1000_dev_set_owner boot user_task (kthread_result.task 7)).1
     user_task kernel_task (kthread_result.task 7) (kthread_result.task 8)
     (by decide) (by decide) rfl⟩

/-- C4 (as stated) fails for a caller without an address space: the first call succeeds and
leaves `dev->mm` NULL, so the second call succeeds as well, creates a second worker and
overwrites `dev->worker`. -/
theorem C4_kernel_task_counterexample :
    (v1000_dev_set_owner boot kernel_task (kthread_result.task 7)).2.2 = 0
    ∧ (v1000_dev_set_owner boot kernel_task (kthread_result.task 7)).1.dev.worker = some 7
    ∧ (v1000_dev_set_owner (v1000_dev_set_owner boot kernel_task (kthread_result.task 7)).1
          kernel_task (kthread_result.task 8)).2.2 ≠ -EBUSY
    ∧ Effect.kthread_create true ∈
        (v1000_dev_set_owner (v1000_dev_set_owner boot kernel_task (kthread_result.task 7)).1
          kernel_task (kthread_result.task 8)).2.1
    ∧ (v1000_dev_set_owner (v1000_dev_set_owner boot kernel_task (kthread_result.task 7)).1
          kernel_task (kthread_result.task 8)).1.dev.worker = some 8 := by
  decide

/-- C5. `v1000_dev_set_owner` is atomic on failure: whenever it returns a non-zero value the
whole state, in particular `dev->mm` and `dev->worker`, is what it was before the call; the
failure is either the already-owned case or a failed `kthread_create` on a device without a
bound context, and in the latter case `dev->mm` is NULL again afterwards and a context
reference that `get_task_mm` handed out has been given back by exactly one `mmput`. -/
theorem C5_set_owner_atomic (s : State) (cur : task_struct) (c : kthread_result)
    (herr : (v1000_dev_set_owner s cur c).2.2 ≠ 0) :
    (v1000_dev_set_owner s cur c).1 = s
    ∧ (v1000_dev_set_owner s cur c).1.dev.mm = s.dev.mm
    ∧ (v1000_dev_set_owner s cur c).1.dev.worker = s.dev.worker
    ∧ ((s.dev.mm ≠ none ∧ (v1000_dev_set_owner s cur c).2.1 = []
          ∧ (v1000_dev_set_owner s cur c).2.2 = -EBUSY)
        ∨ (s.dev.mm = none ∧ (∃ e, c = kthread_result.err_ptr e)
            ∧ (v1000_dev_set_owner s cur c).1.dev.mm = none
            ∧ ∀ m, (v1000_dev_set_owner s cur c).2.1.count (Effect.mmput m)
                = if cur.mm = some m then 1 else 0)) := by
  have key : (v1000_dev_set_owner s cur c).1 = s := by
    unfold v1000_dev_set_owner at herr ⊢
    cases hs : s.dev.mm with
    | some x => simp
    | none =>
      cases c with
      | task t => simp [hs] at herr
      | err_ptr e =>
        obtain ⟨d, wk, wq, ww, wsq⟩ := s
        obtain ⟨tx, rx, mem, mm, wl, wr⟩ := d
        simp only at hs
        subst hs
        rfl
  refine ⟨key, by rw [key], by rw [key], ?_⟩
  unfold v1000_dev_set_owner at herr ⊢
  cases hs : s.dev.mm with
  | some x => left; simp
  | none =>
    right
    cases c with
    | task t => simp [hs] at herr
    | err_ptr e =>
      refine ⟨rfl, ⟨e, rfl⟩, rfl, ?_⟩
      intro m
      cases hc : cur.mm with
      | none => simp [List.count_cons]
      | some x =>
        by_cases hx : x = m
        · subst hx; simp [List.count_cons]
        · have hx2 : ¬ m = x := fun e => hx e.symm
          simp [List.count_cons, hx, hx2]

theorem C5_set_owner_atomic_witness :
    (v1000_dev_set_owner boot user_task (kthread_result.err_ptr 11)).2.2 ≠ 0
    ∧ ((v1000_dev_set_owner boot user_task (kthread_result.err_ptr 11)).1 = boot
      ∧ (v1000_dev_set_owner boot user_task (kthread_result.err_ptr 11)).1.dev.mm = boot.dev.mm
      ∧ (v1000_dev_set_owner boot user_task (kthread_result.err_ptr 11)).1.dev.worker
          = boot.dev.worker
      ∧ ((boot.dev.mm ≠ none
            ∧ (v1000_dev_set_owner boot user_task (kthread_result.err_ptr 11)).2.1 = []
            ∧ (v1000_dev_set_owner boot user_task (kthread_result.err_ptr 11)).2.2 = -EBUSY)
          ∨ (boot.dev.mm = none ∧ (∃ e, kthread_result.err_ptr 11 = kthread_result.err_ptr e)
              ∧ (v1000_dev_set_owner boot user_task (kthread_result.err_ptr 11)).1.dev.mm = none
              ∧ ∀ m, (v1000_dev_set_owner boot user_task
                    (kthread_result.err_ptr 11)).2.1.count (Effect.mmput m)
                  = if user_task.mm = some m then 1 else 0))) :=
  ⟨by decide, C5_set_owner_atomic boot user_task (kthread_result.err_ptr 11) (by decide)⟩

/-- C6 (as amended). `v1000_dev_check_owner` returns `0` exactly when `dev->mm` equals the
caller's `current->mm` (which is also the case when both are NULL: a device without a bound
context and a caller without an address space); otherwise it returns `-EPERM`; it never
modifies the state. -/
theorem C6_check_owner (s : State) (cur : task_struct) :
    ((v1000_dev_check_owner s cur).2 = 0 ↔ s.dev.mm = cur.mm)
    ∧ ((v1000_dev_check_owner s cur).2 = 0 ∨ (v1000_dev_check_owner s cur).2 = -EPERM)
    ∧ (v1000_dev_check_owner s cur).1 = s := by
  unfold v1000_dev_check_owner
  by_cases h : s.dev.mm = cur.mm
  · simp [h]
  · simp [h, EPERM]

/-- C6 (as stated) fails: on a device without a bound context, a caller without an address
space is answered `0`, not `-EPERM`. -/
theorem C6_unbound_counterexample :
    boot.dev.mm = none
    ∧ (v1000_dev_check_owner boot kernel_task).2 = 0
    ∧ (v1000_dev_check_owner boot kernel_task).2 ≠ -EPERM := by
  decide

theorem ring_put_count_fput (r : v1000_ring) (f : Nat) :
    (ring_put r).count (Effect.fput f) = [r.kick, r.call].count (some f) := by
  unfold ring_put
  cases r.kick <;> cases r.call_ctx <;> cases r.call <;>
    simp [List.count_cons, List.count_append]

theorem ring_put_count_ctx (r : v1000_ring) (c : Nat) :
    (ring_put r).count (Effect.eventfd_ctx_put c) = [r.call_ctx].count (some c) := by
  unfold ring_put
  cases r.kick <;> cases r.call_ctx <;> cases r.call <;>
    simp [List.count_cons, List.count_append]

theorem ring_put_mem (r : v1000_ring) (e : Effect) (h : e ∈ ring_put r) :
    (∃ f, e = Effect.fput f) ∨ (∃ c, e = Effect.eventfd_ctx_put c) := by
  unfold ring_put at h
  cases hk : r.kick <;> cases hc : r.call_ctx <;> cases hl : r.call <;>
    simp [hk, hc, hl] at h <;> aesop

theorem ring_put_count_other (r : v1000_ring) (e : Effect)
    (h1 : ∀ f, e ≠ Effect.fput f) (h2 : ∀ c, e ≠ Effect.eventfd_ctx_put c) :
    (ring_put r).count e = 0 := by
  rw [List.count_eq_zero]
  intro hm
  rcases ring_put_mem r e hm with ⟨f, hf⟩ | ⟨c, hc⟩
  · exact h1 f hf
  · exact h2 c hc

theorem cleanup_log (s : State) :
    (v1000_dev_cleanup s).2
      = (ring_put s.dev.tx_ring ++ ring_put s.dev.rx_ring) ++ [Effect.kfree s.dev.memory]
        ++ (if s.dev.work_list ≠ [] then [Effect.WARN] else [])
        ++ (match s.dev.worker with
            | some t => [Effect.kthread_stop t]
            | none => [])
        ++ (match s.dev.mm with
            | some m => [Effect.mmput m]
            | none => []) := rfl

theorem cleanup_dev (s : State) :
    (v1000_dev_cleanup s).1.dev
      = { tx_ring := v1000_vr_reset s.dev.tx_ring, rx_ring := v1000_vr_reset s.dev.rx_ring,
          memory := none, mm := none, work_list := s.dev.work_list, worker := none } := rfl

theorem cleanup_count_stop (s : State) (t : Nat) :
    (v1000_dev_cleanup s).2.count (Effect.kthread_stop t) = [s.dev.worker].count (some t) := by
  rw [cleanup_log]
  simp only [List.count_append, ring_put_count_other _ (Effect.kthread_stop t)
    (fun _ => by simp) (fun _ => by simp)]
  cases s.dev.worker <;> cases s.dev.mm <;> split <;> simp [List.count_cons]

theorem cleanup_count_mmput (s : State) (m : Nat) :
    (v1000_dev_cleanup s).2.count (Effect.mmput m) = [s.dev.mm].count (some m) := by
  rw [cleanup_log]
  simp only [List.count_append, ring_put_count_other _ (Effect.mmput m)
    (fun _ => by simp) (fun _ => by simp)]
  cases s.dev.worker <;> cases s.dev.mm <;> split <;> simp [List.count_cons]

theorem cleanup_count_warn (s : State) :
    (v1000_dev_cleanup s).2.count Effect.WARN = if s.dev.work_list ≠ [] then 1 else 0 := by
  rw [cleanup_log]
  simp only [List.count_append, ring_put_count_other _ Effect.WARN
    (fun _ => by simp) (fun _ => by simp)]
  cases s.dev.worker <;> cases s.dev.mm <;> split <;> simp [List.count_cons]

theorem cleanup_count_kfree (s : State) (p : Option Nat) :
    (v1000_dev_cleanup s).2.count (Effect.kfree p) = if s.dev.memory = p then 1 else 0 := by
  rw [cleanup_log]
  simp only [List.count_append, ring_put_count_other _ (Effect.kfree p)
    (fun _ => by simp) (fun _ => by simp)]
  cases s.dev.worker <;> cases s.dev.mm <;> split <;> simp [List.count_cons]

/-- C7 (as amended). With a worker present, `v1000_dev_cleanup` frees the memory table
exactly once and before it stops the worker: no `kthread_stop` precedes the `kfree`, the
`kthread_stop` of the worker follows it, and in the state in which the `kfree` is executed
`dev->worker` is still set and `dev->memory` is still the table being freed. -/
theorem C7_kfree_before_stop (s : State) (t : Nat) (h : s.dev.worker = some t) :
    ∃ pre post, (v1000_dev_cleanup s).2 = pre ++ Effect.kfree s.dev.memory :: post
      ∧ (∀ p, Effect.kfree p ∉ pre) ∧ (∀ u, Effect.kthread_stop u ∉ pre)
      ∧ (∀ p, Effect.kfree p ∉ post) ∧ post.count (Effect.kthread_stop t) = 1
      ∧ (cleanup_state_at_kfree s).dev.worker = some t
      ∧ (cleanup_state_at_kfree s).dev.memory = s.dev.memory := by
  refine ⟨ring_put s.dev.tx_ring ++ ring_put s.dev.rx_ring,
    (if s.dev.work_list ≠ [] then [Effect.WARN] else []) ++ [Effect.kthread_stop t]
      ++ (match s.dev.mm with
          | some m => [Effect.mmput m]
          | none => []), ?_, ?_, ?_, ?_, ?_, ?_, ?_⟩
  · rw [cleanup_log, h]
    simp
  · intro p hp
    rcases List.mem_append.mp hp with hp | hp
    · rcases ring_put_mem _ _ hp with ⟨f, hf⟩ | ⟨c, hc⟩ <;> simp at *
    · rcases ring_put_mem _ _ hp with ⟨f, hf⟩ | ⟨c, hc⟩ <;> simp at *
  · intro u hu
    rcases List.mem_append.mp hu with hu | hu
    · rcases ring_put_mem _ _ hu with ⟨f, hf⟩ | ⟨c, hc⟩ <;> simp at *
    · rcases ring_put_mem _ _ hu with ⟨f, hf⟩ | ⟨c, hc⟩ <;> simp at *
  · intro p
    cases s.dev.mm <;> split <;> simp
  · cases s.dev.mm <;> split <;> simp [List.count_cons, List.count_append]
  · exact h
  · rfl

theorem C7_kfree_before_stop_witness :
    owned_state.dev.worker = some 7
    ∧ (∃ pre post, (v1000_dev_cleanup owned_state).2 = pre ++ Effect.kfree owned_state.dev.memory :: post
      ∧ (∀ p, Effect.kfree p ∉ pre) ∧ (∀ u, Effect.kthread_stop u ∉ pre)
      ∧ (∀ p, Effect.kfree p ∉ post) ∧ post.count (Effect.kthread_stop 7) = 1
      ∧ (cleanup_state_at_kfree owned_state).dev.worker = some 7
      ∧ (cleanup_state_at_kfree owned_state).dev.memory = owned_state.dev.memory) :=
  ⟨rfl, C7_kfree_before_stop owned_state 7 rfl⟩

/-- C7 (as stated) fails: on an owned device the log of `v1000_dev_cleanup` has the `kfree`
of the memory table before the `kthread_stop` of the worker, and the state in which the
`kfree` is executed still has the worker. -/
theorem C7_order_counterexample :
    owned_state.dev.worker = some 7
    ∧ (v1000_dev_cleanup owned_state).2
        = [Effect.fput 10, Effect.eventfd_ctx_put 11, Effect.fput 12, Effect.fput 20,
           Effect.fput 12, Effect.kfree (some 3), Effect.kthread_stop 7, Effect.mmput 100]
    ∧ (v1000_dev_cleanup owned_state).2.indexOf (Effect.kfree (some 3))
        < (v1000_dev_cleanup owned_state).2.indexOf (Effect.kthread_stop 7)
    ∧ (cleanup_state_at_kfree owned_state).dev.worker = some 7 := by
  decide

/-- C8 (as amended). On a non-empty work list `v1000_dev_cleanup` issues the warning of its
`WARN_ON` once and then completes: it returns with the worker stopped and `dev->worker`
NULL, the context released and `dev->mm` NULL, the memory table freed and `dev->memory`
NULL, and the work list as it was, still non-empty. -/
theorem C8_cleanup_warns (s : State) (h : s.dev.work_list ≠ []) :
    (v1000_dev_cleanup s).2.count Effect.WARN = 1
    ∧ (v1000_dev_cleanup s).1.dev.work_list = s.dev.work_list
    ∧ (v1000_dev_cleanup s).1.dev.worker = none
    ∧ (v1000_dev_cleanup s).1.dev.mm = none
    ∧ (v1000_dev_cleanup s).1.dev.memory = none
    ∧ (∀ t, (v1000_dev_cleanup s).2.count (Effect.kthread_stop t) = [s.dev.worker].count (some t))
    ∧ (∀ m, (v1000_dev_cleanup s).2.count (Effect.mmput m) = [s.dev.mm].count (some m))
    ∧ (v1000_dev_cleanup s).2.count (Effect.kfree s.dev.memory) = 1 := by
  refine ⟨?_, ?_, ?_, ?_, ?_, cleanup_count_stop s, cleanup_count_mmput s, ?_⟩
  · rw [cleanup_count_warn]; simp [h]
  · rw [cleanup_dev]
  · rw [cleanup_dev]
  · rw [cleanup_dev]
  · rw [cleanup_dev]
  · rw [cleanup_count_kfree]; simp

theorem C8_cleanup_warns_witness :
    queued_state.dev.work_list ≠ []
    ∧ ((v1000_dev_cleanup queued_state).2.count Effect.WARN = 1
    ∧ (v1000_dev_cleanup queued_state).1.dev.work_list = queued_state.dev.work_list
    ∧ (v1000_dev_cleanup queued_state).1.dev.worker = none
    ∧ (v1000_dev_cleanup queued_state).1.dev.mm = none
    ∧ (v1000_dev_cleanup queued_state).1.dev.memory = none
    ∧ (∀ t, (v1000_dev_cleanup queued_state).2.count (Effect.kthread_stop t) = [queued_state.dev.worker].count (some t))
    ∧ (∀ m, (v1000_dev_cleanup queued_state).2.count (Effect.mmput m) = [queued_state.dev.mm].count (some m))
    ∧ (v1000_dev_cleanup queued_state).2.count (Effect.kfree queued_state.dev.memory) = 1) :=
  ⟨by decide, C8_cleanup_warns queued_state (by decide)⟩

/-- C8 (as stated) fails: with work `0` still queued `v1000_dev_cleanup` returns, with the
worker stopped, the context released and the memory table cleared, and the work still in the
list; the only trace of the check is a warning. -/
theorem C8_nonfatal_counterexample :
    queued_state.dev.work_list = [0]
    ∧ (v1000_dev_cleanup queued_state).1.dev.work_list = [0]
    ∧ (v1000_dev_cleanup queued_state).1.dev.worker = none
    ∧ (v1000_dev_cleanup queued_state).1.dev.mm = none
    ∧ (v1000_dev_cleanup queued_state).1.dev.memory = none
    ∧ (v1000_dev_cleanup queued_state).2
        = [Effect.fput 10, Effect.eventfd_ctx_put 11, Effect.fput 12, Effect.fput 20,
           Effect.fput 12, Effect.kfree (some 3), Effect.WARN, Effect.kthread_stop 7,
           Effect.mmput 100] := by
  decide

/-- C9. Cleanup postcondition: on an empty work list, after `v1000_dev_cleanup` the work
list is empty, `dev->worker`, `dev->mm` and `dev->memory` are NULL, both rings have `kick`,
`call_ctx`, `call` and `private_data` NULL, every file handle (`kick`, `call`) and eventfd
context (`call_ctx`) a ring held has been put exactly once per holding field, the context
reference has been put exactly once, the worker has been stopped exactly once, and no
warning was issued. -/
theorem C9_cleanup_post (s : State) (h : s.dev.work_list = []) :
    (v1000_dev_cleanup s).1.dev.work_list = []
    ∧ (v1000_dev_cleanup s).1.dev.worker = none
    ∧ (v1000_dev_cleanup s).1.dev.mm = none
    ∧ (v1000_dev_cleanup s).1.dev.memory = none
    ∧ (∀ i, (ring (v1000_dev_cleanup s).1 i).kick = none ∧ (ring (v1000_dev_cleanup s).1 i).call_ctx = none
          ∧ (ring (v1000_dev_cleanup s).1 i).call = none ∧ (ring (v1000_dev_cleanup s).1 i).private_data = none)
    ∧ (∀ f, (v1000_dev_cleanup s).2.count (Effect.fput f) = (file_handles s).count (some f))
    ∧ (∀ c, (v1000_dev_cleanup s).2.count (Effect.eventfd_ctx_put c) = (ctx_handles s).count (some c))
    ∧ (∀ m, (v1000_dev_cleanup s).2.count (Effect.mmput m) = [s.dev.mm].count (some m))
    ∧ (∀ t, (v1000_dev_cleanup s).2.count (Effect.kthread_stop t) = [s.dev.worker].count (some t))
    ∧ Effect.WARN ∉ (v1000_dev_cleanup s).2 := by
  refine ⟨?_, ?_, ?_, ?_, ?_, ?_, ?_, cleanup_count_mmput s, cleanup_count_stop s, ?_⟩
  · rw [cleanup_dev]; exact h
  · rw [cleanup_dev]
  · rw [cleanup_dev]
  · rw [cleanup_dev]
  · intro i
    unfold ring
    rw [cleanup_dev]
    by_cases hi : i = 0 <;> simp [hi, v1000_vr_reset]
  · intro f
    rw [cleanup_log]
    simp only [List.count_append, ring_put_count_fput, file_handles]
    cases s.dev.worker <;> cases s.dev.mm <;> split <;> simp [List.count_cons] <;> omega
  · intro c
    rw [cleanup_log]
    simp only [List.count_append, ring_put_count_ctx, ctx_handles]
    cases s.dev.worker <;> cases s.dev.mm <;> split <;> simp [List.count_cons] <;> omega
  · rw [← List.count_eq_zero, cleanup_count_warn]
    simp [h]

theorem C9_cleanup_post_witness :
    owned_state.dev.work_list = []
    ∧ ((v1000_dev_cleanup owned_state).1.dev.work_list = []
    ∧ (v1000_dev_cleanup owned_state).1.dev.worker = none
    ∧ (v1000_dev_cleanup owned_state).1.dev.mm = none
    ∧ (v1000_dev_cleanup owned_state).1.dev.memory = none
    ∧ (∀ i, (ring (v1000_dev_cleanup owned_state).1 i).kick = none ∧ (ring (v1000_dev_cleanup owned_state).1 i).call_ctx = none
          ∧ (ring (v1000_dev_cleanup owned_state).1 i).call = none ∧ (ring (v1000_dev_cleanup owned_state).1 i).private_data = none)
    ∧ (∀ f, (v1000_dev_cleanup owned_state).2.count (Effect.fput f) = (file_handles owned_state).count (some f))
    ∧ (∀ c, (v1000_dev_cleanup owned_state).2.count (Effect.eventfd_ctx_put c) = (ctx_handles owned_state).count (some c))
    ∧ (∀ m, (v1000_dev_cleanup owned_state).2.count (Effect.mmput m) = [owned_state.dev.mm].count (some m))
    ∧ (∀ t, (v1000_dev_cleanup owned_state).2.count (Effect.kthread_stop t) = [owned_state.dev.worker].count (some t))
    ∧ Effect.WARN ∉ (v1000_dev_cleanup owned_state).2) :=
  ⟨rfl, C9_cleanup_post owned_state rfl⟩

/-- C10 (the code at the failing input). An unregistered adapter is started on a file that
registers it on wait-queue head `5` and reports `POLLERR`: `v1000_poll_start` returns
`-EINVAL` and takes the adapter off the wait queue, but `poll->wqh` still names the
wait-queue head, so a following `v1000_poll_stop` calls `remove_wait_queue` once more. -/
theorem C10_failed_start_keeps_wqh :
    (ring boot 0).poll.wqh = none
    ∧ (v1000_poll_start boot 0 err_file).2.2 = -EINVAL
    ∧ (v1000_poll_start boot 0 err_file).2.1
        = [Effect.add_wait_queue 5 0, Effect.remove_wait_queue 5 0]
    ∧ (0 : Fin 2) ∉ (v1000_poll_start boot 0 err_file).1.waitq 5
    ∧ (ring (v1000_poll_start boot 0 err_file).1 0).poll.wqh = some 5
    ∧ (v1000_poll_stop (v1000_poll_start boot 0 err_file).1 0).2
        = [Effect.remove_wait_queue 5 0] := by
  decide

theorem land_eq_zero_iff (a b : Nat) : a &&& b = 0 ↔ ¬ common_bit a b := by
  unfold common_bit
  constructor
  · rintro h ⟨n, ha, hb⟩
    have := Nat.testBit_land a b n
    rw [h, Nat.zero_testBit, ha, hb] at this
    simp at this
  · intro h
    apply Nat.eq_of_testBit_eq
    intro n
    rw [Nat.testBit_land, Nat.zero_testBit]
    by_cases ha : a.testBit n = true
    · by_cases hb : b.testBit n = true
      · exact absurd ⟨n, ha, hb⟩ h
      · simp [hb]
    · simp [ha]

theorem ring_set_ring (s : State) (i : Fin 2) (r : v1000_ring) : ring (set_ring s i r) i = r := by
  unfold ring set_ring
  by_cases h : i = 0 <;> simp [h]

theorem set_ring_work_list (s : State) (i : Fin 2) (r : v1000_ring) :
    (set_ring s i r).dev.work_list = s.dev.work_list := by
  unfold set_ring
  by_cases h : i = 0 <;> simp [h]

theorem set_ring_worker (s : State) (i : Fin 2) (r : v1000_ring) :
    (set_ring s i r).dev.worker = s.dev.worker := by
  unfold set_ring
  by_cases h : i = 0 <;> simp [h]

theorem set_ring_works (s : State) (i : Fin 2) (r : v1000_ring) :
    (set_ring s i r).works = s.works := by
  unfold set_ring
  by_cases h : i = 0 <;> simp [h]

theorem set_ring_waitq (s : State) (i : Fin 2) (r : v1000_ring) :
    (set_ring s i r).waitq = s.waitq := by
  unfold set_ring
  by_cases h : i = 0 <;> simp [h]

/-- The part of the state `v1000_work_queue` reads and writes is the work list, the work
structures and (for the wake-up) the worker: two states that agree on them give results that
agree on them. -/
theorem work_queue_congr (s t : State) (w : Nat)
    (hl : t.dev.work_list = s.dev.work_list) (hw : t.works = s.works)
    (hk : t.dev.worker = s.dev.worker) :
    (v1000_work_queue t w).1.dev.work_list = (v1000_work_queue s w).1.dev.work_list
    ∧ (v1000_work_queue t w).1.works = (v1000_work_queue s w).1.works
    ∧ (v1000_work_queue t w).2 = (v1000_work_queue s w).2 := by
  unfold v1000_work_queue
  rw [hl, hw, hk]
  by_cases h : w ∈ s.dev.work_list
  · simp [h, hl, hw]
  · simp [h]

theorem file_poll_frame (s : State) (i : Fin 2) (f : file) :
    (file_poll s i f).1.dev.work_list = s.dev.work_list
    ∧ (file_poll s i f).1.works = s.works
    ∧ (file_poll s i f).1.dev.worker = s.dev.worker
    ∧ (ring (file_poll s i f).1 i).poll.mask = (ring s i).poll.mask
    ∧ (ring (file_poll s i f).1 i).poll.work = (ring s i).poll.work
    ∧ (file_poll s i f).2.2 = f.revents := by
  unfold file_poll
  cases f.wqh with
  | none => simp
  | some q =>
    simp only [v1000_poll_func]
    refine ⟨?_, ?_, ?_, ?_, ?_, trivial⟩
    · exact set_ring_work_list _ _ _
    · exact set_ring_works _ _ _
    · exact set_ring_worker _ _ _
    · show (ring (set_ring s i _) i).poll.mask = _
      rw [ring_set_ring]
    · show (ring (set_ring s i _) i).poll.work = _
      rw [ring_set_ring]

theorem poll_wakeup_congr (s t : State) (i : Fin 2) (key : Nat)
    (hl : t.dev.work_list = s.dev.work_list) (hw : t.works = s.works)
    (hk : t.dev.worker = s.dev.worker)
    (hm : (ring t i).poll.mask = (ring s i).poll.mask)
    (ha : (ring t i).poll.work = (ring s i).poll.work) :
    (v1000_poll_wakeup t i key).1.dev.work_list = (v1000_poll_wakeup s i key).1.dev.work_list
    ∧ (v1000_poll_wakeup t i key).1.works = (v1000_poll_wakeup s i key).1.works
    ∧ (v1000_poll_wakeup t i key).2.1 = (v1000_poll_wakeup s i key).2.1 := by
  unfold v1000_poll_wakeup v1000_poll_queue
  rw [hm, ha]
  by_cases h : key &&& (ring s i).poll.mask = 0
  · simp [h, hl, hw]
  · simp only [h, if_false]
    exact work_queue_congr s t _ hl hw hk

/-- The work queue after `v1000_poll_start` is the work queue after a live
`v1000_poll_wakeup` delivered with the readiness value the file reported. -/
theorem poll_start_queue (s : State) (i : Fin 2) (f : file) :
    (v1000_poll_start s i f).1.dev.work_list
        = (v1000_poll_wakeup s i f.revents).1.dev.work_list
    ∧ (v1000_poll_start s i f).1.works = (v1000_poll_wakeup s i f.revents).1.works := by
  obtain ⟨hl, hw, hk, hm, ha, hr⟩ := file_poll_frame s i f
  obtain ⟨cl, cw, _⟩ := poll_wakeup_congr s (file_poll s i f).1 i f.revents hl hw hk hm ha
  have h0 : f.revents = 0 → (v1000_poll_wakeup s i f.revents).1 = s := by
    intro h
    simp [v1000_poll_wakeup, h]
  unfold v1000_poll_start
  simp only [hr]
  by_cases hz : f.revents = 0
  · rw [h0 hz]
    simp only [hz, ne_eq, not_true_eq_false, if_false, Nat.zero_and]
    exact ⟨hl, hw⟩
  · simp only [ne_eq, hz, not_false_eq_true, if_true]
    split
    · split
      · exact ⟨cl, cw⟩
      · exact ⟨cl, cw⟩
    · exact ⟨cl, cw⟩

/-- The two cases of `v1000_poll_wakeup`, for use in other proofs. -/
theorem poll_wakeup_cases (s : State) (i : Fin 2) (key : Nat) :
    (v1000_poll_wakeup s i key).2.2 = 0
    ∧ (¬ common_bit key (ring s i).poll.mask →
        (v1000_poll_wakeup s i key).1 = s ∧ (v1000_poll_wakeup s i key).2.1 = [])
    ∧ (common_bit key (ring s i).poll.mask →
        (v1000_poll_wakeup s i key).1 = (v1000_work_queue s (ring s i).poll.work).1
        ∧ (v1000_poll_wakeup s i key).2.1 = (v1000_work_queue s (ring s i).poll.work).2) := by
  unfold v1000_poll_wakeup v1000_poll_queue
  by_cases h : key &&& (ring s i).poll.mask = 0
  · have hn := (land_eq_zero_iff _ _).mp h
    simp [h, hn]
  · have hc : common_bit key (ring s i).poll.mask := by
      by_contra hn
      exact h ((land_eq_zero_iff _ _).mpr hn)
    simp [h, hc]

/-- C12. Wakeup mask filter: `v1000_poll_wakeup` returns `0`; when the event mask has no bit
in common with the adapter's mask it returns the state it was given and does nothing;
otherwise its state and effects are exactly those of `v1000_work_queue` on the adapter's
work. -/
theorem C12_wakeup_filter (s : State) (i : Fin 2) (key : Nat) :
    (v1000_poll_wakeup s i key).2.2 = 0
    ∧ (¬ common_bit key (ring s i).poll.mask →
        (v1000_poll_wakeup s i key).1 = s ∧ (v1000_poll_wakeup s i key).2.1 = [])
    ∧ (common_bit key (ring s i).poll.mask →
        (v1000_poll_wakeup s i key).1 = (v1000_work_queue s (ring s i).poll.work).1
        ∧ (v1000_poll_wakeup s i key).2.1 = (v1000_work_queue s (ring s i).poll.work).2) := by
  unfold v1000_poll_wakeup v1000_poll_queue
  by_cases h : key &&& (ring s i).poll.mask = 0
  · have hn := (land_eq_zero_iff _ _).mp h
    simp [h, hn]
  · have hc : common_bit key (ring s i).poll.mask := by
      by_contra hn
      exact h ((land_eq_zero_iff _ _).mpr hn)
    simp [h, hc]

theorem poll_start_ret (s : State) (i : Fin 2) (f : file) :
    ((v1000_poll_start s i f).2.2 = 0 ∧ ¬ common_bit f.revents POLLERR)
    ∨ ((v1000_poll_start s i f).2.2 = -EINVAL ∧ common_bit f.revents POLLERR) := by
  obtain ⟨_, _, _, _, _, hr⟩ := file_poll_frame s i f
  unfold v1000_poll_start
  simp only [hr]
  by_cases h : f.revents &&& POLLERR = 0
  · left
    simp only [h, ne_eq, not_true_eq_false, if_false]
    exact ⟨trivial, (land_eq_zero_iff _ _).mp h⟩
  · right
    have hc : common_bit f.revents POLLERR := by
      by_contra hn
      exact h ((land_eq_zero_iff _ _).mpr hn)
    simp only [ne_eq, h, not_false_eq_true, if_true]
    split <;> exact ⟨rfl, hc⟩

theorem poll_wakeup_queue (s : State) (i : Fin 2) (key : Nat)
    (hw : (ring s i).poll.work ∉ s.dev.work_list) :
    (common_bit key (ring s i).poll.mask
      ∧ (v1000_poll_wakeup s i key).1.dev.work_list = s.dev.work_list ++ [(ring s i).poll.work]
      ∧ ((v1000_poll_wakeup s i key).1.works (ring s i).poll.work).queue_seq
          = u32_add (s.works (ring s i).poll.work).queue_seq 1)
    ∨ (¬ common_bit key (ring s i).poll.mask
      ∧ (v1000_poll_wakeup s i key).1.dev.work_list = s.dev.work_list
      ∧ (v1000_poll_wakeup s i key).1.works = s.works) := by
  obtain ⟨_, h1, h2⟩ := poll_wakeup_cases s i key
  by_cases hc : common_bit key (ring s i).poll.mask
  · left
    refine ⟨hc, ?_, ?_⟩
    · rw [(h2 hc).1]; simp [v1000_work_queue, hw]
    · rw [(h2 hc).1]; simp [v1000_work_queue, hw, set_work]
  · right
    refine ⟨hc, ?_, ?_⟩
    · rw [(h1 hc).1]
    · rw [(h1 hc).1]

/-- C11 (as amended). Whenever `v1000_poll_start` returns an error (the file reported
`POLLERR`, the value returned is `-EINVAL`), the work list and the work structures are what
a live `v1000_poll_wakeup` with the reported readiness value leaves: unchanged when that
value has no bit in common with the adapter's mask, and otherwise the result of submitting
the adapter's work. -/
theorem C11_failed_start_queue (s : State) (i : Fin 2) (f : file)
    (herr : (v1000_poll_start s i f).2.2 ≠ 0) :
    (v1000_poll_start s i f).2.2 = -EINVAL
    ∧ common_bit f.revents POLLERR
    ∧ (v1000_poll_start s i f).1.dev.work_list = (v1000_poll_wakeup s i f.revents).1.dev.work_list
    ∧ (v1000_poll_start s i f).1.works = (v1000_poll_wakeup s i f.revents).1.works
    ∧ (common_bit f.revents (ring s i).poll.mask
        ∨ ((v1000_poll_start s i f).1.dev.work_list = s.dev.work_list ∧ (v1000_poll_start s i f).1.works = s.works)) := by
  obtain ⟨hl, hw⟩ := poll_start_queue s i f
  obtain ⟨_, h1, _⟩ := poll_wakeup_cases s i f.revents
  rcases poll_start_ret s i f with ⟨h0, _⟩ | ⟨he, hc⟩
  · exact absurd h0 herr
  · refine ⟨he, hc, hl, hw, ?_⟩
    by_cases hb : common_bit f.revents (ring s i).poll.mask
    · exact Or.inl hb
    · right
      rw [hl, hw, (h1 hb).1]
      exact ⟨rfl, rfl⟩

theorem C11_failed_start_queue_witness :
    (v1000_poll_start boot 0 err_file).2.2 ≠ 0
    ∧ ((v1000_poll_start boot 0 err_file).2.2 = -EINVAL
    ∧ common_bit err_file.revents POLLERR
    ∧ (v1000_poll_start boot 0 err_file).1.dev.work_list = (v1000_poll_wakeup boot 0 err_file.revents).1.dev.work_list
    ∧ (v1000_poll_start boot 0 err_file).1.works = (v1000_poll_wakeup boot 0 err_file.revents).1.works
    ∧ (common_bit err_file.revents (ring boot 0).poll.mask
        ∨ ((v1000_poll_start boot 0 err_file).1.dev.work_list = boot.dev.work_list ∧ (v1000_poll_start boot 0 err_file).1.works = boot.works))) :=
  ⟨by decide, C11_failed_start_queue boot 0 err_file (by decide)⟩

/-- C11 (as stated) fails: a file that reports `POLLIN | POLLERR` makes `v1000_poll_start`
return `-EINVAL` after it has linked the adapter's work into the work list and incremented
its `queue_seq`. -/
theorem C11_enqueue_counterexample :
    (v1000_poll_start boot 0 ready_err_file).2.2 = -EINVAL
    ∧ boot.dev.work_list = []
    ∧ (v1000_poll_start boot 0 ready_err_file).1.dev.work_list = [0]
    ∧ (boot.works 0).queue_seq = 0
    ∧ ((v1000_poll_start boot 0 ready_err_file).1.works 0).queue_seq = 1 := by
  decide

/-- C13. Start replays existing readiness: when the adapter's work is not linked,
`v1000_poll_start` links it (appending it to the work list and advancing `queue_seq` by one
step of the 32-bit counter) if and only if the readiness value the file reports has a bit in
common with the adapter's mask, and otherwise leaves the work queue as it was; in both cases
the work queue is the one a live `v1000_poll_wakeup` with that readiness value leaves. -/
theorem C13_start_replays (s : State) (i : Fin 2) (f : file)
    (hw : (ring s i).poll.work ∉ s.dev.work_list) :
    ((ring s i).poll.work ∈ (v1000_poll_start s i f).1.dev.work_list ↔ common_bit f.revents (ring s i).poll.mask)
    ∧ ((common_bit f.revents (ring s i).poll.mask ∧ (v1000_poll_start s i f).1.dev.work_list = s.dev.work_list ++ [(ring s i).poll.work]
          ∧ ((v1000_poll_start s i f).1.works (ring s i).poll.work).queue_seq = u32_add (s.works (ring s i).poll.work).queue_seq 1)
        ∨ (¬ common_bit f.revents (ring s i).poll.mask ∧ (v1000_poll_start s i f).1.dev.work_list = s.dev.work_list ∧ (v1000_poll_start s i f).1.works = s.works))
    ∧ (v1000_poll_start s i f).1.dev.work_list = (v1000_poll_wakeup s i f.revents).1.dev.work_list
    ∧ (v1000_poll_start s i f).1.works = (v1000_poll_wakeup s i f.revents).1.works := by
  obtain ⟨hl, hwk⟩ := poll_start_queue s i f
  rw [hl, hwk]
  rcases poll_wakeup_queue s i f.revents hw with ⟨hc, h1, h2⟩ | ⟨hc, h1, h2⟩
  · refine ⟨?_, Or.inl ⟨hc, h1, h2⟩, rfl, rfl⟩
    rw [h1]
    simp [hc]
  · refine ⟨?_, Or.inr ⟨hc, h1, h2⟩, rfl, rfl⟩
    rw [h1]
    simp [hc, hw]

theorem C13_start_replays_witness :
    (ring boot 0).poll.work ∉ boot.dev.work_list
    ∧ (((ring boot 0).poll.work ∈ (v1000_poll_start boot 0 ready_file).1.dev.work_list ↔ common_bit ready_file.revents (ring boot 0).poll.mask)
    ∧ ((common_bit ready_file.revents (ring boot 0).poll.mask ∧ (v1000_poll_start boot 0 ready_file).1.dev.work_list = boot.dev.work_list ++ [(ring boot 0).poll.work]
          ∧ ((v1000_poll_start boot 0 ready_file).1.works (ring boot 0).poll.work).queue_seq = u32_add (boot.works (ring boot 0).poll.work).queue_seq 1)
        ∨ (¬ common_bit ready_file.revents (ring boot 0).poll.mask ∧ (v1000_poll_start boot 0 ready_file).1.dev.work_list = boot.dev.work_list ∧ (v1000_poll_start boot 0 ready_file).1.works = boot.works))
    ∧ (v1000_poll_start boot 0 ready_file).1.dev.work_list = (v1000_poll_wakeup boot 0 ready_file.revents).1.dev.work_list
    ∧ (v1000_poll_start boot 0 ready_file).1.works = (v1000_poll_wakeup boot 0 ready_file.revents).1.works) :=
  ⟨by decide, C13_start_replays boot 0 ready_file (by decide)⟩

theorem poll_stop_frame (s : State) (i : Fin 2) :
    (v1000_poll_stop s i).1.works = s.works
    ∧ (v1000_poll_stop s i).1.dev.work_list = s.dev.work_list
    ∧ (ring (v1000_poll_stop s i).1 i).poll.wqh = none := by
  unfold v1000_poll_stop
  cases h : (ring s i).poll.wqh with
  | none => exact ⟨rfl, rfl, h⟩
  | some q =>
    refine ⟨?_, ?_, ?_⟩
    · show (set_ring _ i _).works = _
      rw [set_ring_works]; rfl
    · show (set_ring _ i _).dev.work_list = _
      rw [set_ring_work_list]; rfl
    · show (ring (set_ring _ i _) i).poll.wqh = none
      rw [ring_set_ring]

theorem poll_stop_unregistered (s : State) (i : Fin 2) (h : (ring s i).poll.wqh = none) :
    v1000_poll_stop s i = (s, []) := by
  unfold v1000_poll_stop
  simp only [h]

theorem poll_stop_waitq (s : State) (i : Fin 2) (q : Nat) :
    ((v1000_poll_stop s i).1.waitq q).count i
      = if (ring s i).poll.wqh = some q then (s.waitq q).count i - 1 else (s.waitq q).count i := by
  unfold v1000_poll_stop
  cases h : (ring s i).poll.wqh with
  | none => simp
  | some q0 =>
    show ((set_ring _ i _).waitq q).count i = _
    rw [set_ring_waitq]
    by_cases hq : q = q0
    · subst hq
      simp [remove_wait_queue, set_waitq, List.count_erase_self]
    · have hq2 : ¬ q0 = q := fun e => hq e.symm
      simp [remove_wait_queue, set_waitq, hq, hq2]

/-- C14. `v1000_poll_stop` is idempotent: a second call returns the state the first call
left and performs no deregistration; after the first call `poll->wqh` is NULL and, the
adapter's wait entry having been on no wait queue other than the one `poll->wqh` named (and
at most once on that one), it is on no wait queue; the work structures and the work list are
untouched. -/
theorem C14_poll_stop_idempotent (s : State) (i : Fin 2)
    (hreg : ∀ q, (s.waitq q).count i ≤ if (ring s i).poll.wqh = some q then 1 else 0) :
    v1000_poll_stop (v1000_poll_stop s i).1 i = ((v1000_poll_stop s i).1, [])
    ∧ (ring (v1000_poll_stop s i).1 i).poll.wqh = none
    ∧ (∀ q, i ∉ (v1000_poll_stop s i).1.waitq q)
    ∧ (v1000_poll_stop s i).1.works = s.works
    ∧ (v1000_poll_stop s i).1.dev.work_list = s.dev.work_list := by
  obtain ⟨hw, hl, hn⟩ := poll_stop_frame s i
  refine ⟨?_, hn, ?_, hw, hl⟩
  · exact poll_stop_unregistered _ i hn
  · intro q
    rw [← List.count_eq_zero, poll_stop_waitq]
    have := hreg q
    split <;> simp_all

theorem registered_state_ok (q : Nat) :
    (registered_state.waitq q).count 0
      ≤ if (ring registered_state 0).poll.wqh = some q then 1 else 0 := by
  have hw : (ring registered_state 0).poll.wqh = some 5 := by decide
  have hq : registered_state.waitq = set_waitq (fun _ => []) 5 [0] := rfl
  rw [hw, hq]
  by_cases h : q = 5
  · subst h; decide
  · have h2 : ¬ 5 = q := fun e => h e.symm
    simp [set_waitq, h, h2]

theorem C14_poll_stop_idempotent_witness :
    (∀ q, (registered_state.waitq q).count 0
        ≤ if (ring registered_state 0).poll.wqh = some q then 1 else 0)
    ∧ (v1000_poll_stop (v1000_poll_stop registered_state 0).1 0 = ((v1000_poll_stop registered_state 0).1, [])
    ∧ (ring (v1000_poll_stop registered_state 0).1 0).poll.wqh = none
    ∧ (∀ q, 0 ∉ (v1000_poll_stop registered_state 0).1.waitq q)
    ∧ (v1000_poll_stop registered_state 0).1.works = registered_state.works
    ∧ (v1000_poll_stop registered_state 0).1.dev.work_list = registered_state.dev.work_list) :=
  ⟨registered_state_ok, C14_poll_stop_idempotent registered_state 0 registered_state_ok⟩

theorem work_queue_fn (s : State) (v w : Nat) :
    ((v1000_work_queue s v).1.works w).fn = (s.works w).fn := by
  unfold v1000_work_queue
  by_cases h : v ∈ s.dev.work_list
  · simp [h]
  · by_cases hw : w = v
    · subst hw; simp [h, set_work]
    · simp [h, set_work, hw]

theorem work_queue_all_fn (ws : List Nat) (s : State) (w : Nat) :
    ((work_queue_all s ws).works w).fn = (s.works w).fn := by
  induction ws generalizing s with
  | nil => rfl
  | cons v ws ih =>
    show ((work_queue_all (v1000_work_queue s v).1 ws).works w).fn = _
    rw [ih, work_queue_fn]

theorem work_queue_all_list (ws : List Nat) (s : State)
    (hnew : ∀ w ∈ ws, w ∉ s.dev.work_list) (hnd : ws.Nodup) :
    (work_queue_all s ws).dev.work_list = s.dev.work_list ++ ws := by
  induction ws generalizing s with
  | nil => simp [work_queue_all]
  | cons v ws ih =>
    have hv : v ∉ s.dev.work_list := hnew v (List.mem_cons_self v ws)
    have hl : (v1000_work_queue s v).1.dev.work_list = s.dev.work_list ++ [v] := by
      simp [v1000_work_queue, hv]
    have hnd2 := List.nodup_cons.mp hnd
    show (work_queue_all (v1000_work_queue s v).1 ws).dev.work_list = _
    rw [ih _ ?_ hnd2.2, hl]
    · simp
    · intro w hw
      rw [hl]
      intro hm
      rcases List.mem_append.mp hm with h1 | h1
      · exact hnew w (List.mem_cons_of_mem v hw) h1
      · rw [List.mem_singleton] at h1
        subst h1
        exact hnd2.1 hw

theorem handler_calls_append (a b : List Effect) :
    handler_calls (a ++ b) = handler_calls a ++ handler_calls b := by
  induction a with
  | nil => rfl
  | cons e a ih =>
    cases e <;> simp [handler_calls, ih]

theorem record_done_calls (s : State) : handler_calls (worker_record_done s).2 = [] := by
  unfold worker_record_done
  split
  · rfl
  · split <;> rfl

theorem record_done_fn (s : State) (w : Nat) :
    ((worker_record_done s).1.works w).fn = (s.works w).fn := by
  unfold worker_record_done
  split
  · rfl
  · rename_i v _
    by_cases h : w = v
    · subst h; simp [set_work]
    · simp [set_work, h]

theorem worker_iter_nil (s : State) (h : s.dev.work_list = []) :
    (v1000_worker_iter s false).1.dev.work_list = []
    ∧ handler_calls (v1000_worker_iter s false).2.1 = [] := by
  have h1 : (worker_record_done s).1.dev.work_list = [] := by rw [record_done_dev]; exact h
  refine ⟨?_, ?_⟩
  · simp only [v1000_worker_iter, h1, Bool.false_eq_true, if_false]
  · simp only [v1000_worker_iter, h1, Bool.false_eq_true, if_false]
    rw [handler_calls_append, record_done_calls]
    rfl

theorem worker_iter_cons (s : State) (w : Nat) (rest : List Nat)
    (h : s.dev.work_list = w :: rest) :
    (v1000_worker_iter s false).1.dev.work_list = rest
    ∧ handler_calls (v1000_worker_iter s false).2.1 = [((s.works w).fn, w)] := by
  have h1 : (worker_record_done s).1.dev.work_list = w :: rest := by
    rw [record_done_dev]; exact h
  refine ⟨?_, ?_⟩
  · simp only [v1000_worker_iter, h1, Bool.false_eq_true, if_false]
  · simp only [v1000_worker_iter, h1, Bool.false_eq_true, if_false]
    rw [handler_calls_append, record_done_calls, record_done_fn]
    rfl

theorem worker_iter_fn (s : State) (b : Bool) (w : Nat) :
    ((v1000_worker_iter s b).1.works w).fn = (s.works w).fn := by
  unfold v1000_worker_iter
  cases b with
  | true => simp only [if_true]; exact record_done_fn s w
  | false =>
    simp only [Bool.false_eq_true, if_false]
    split <;> exact record_done_fn s w

theorem worker_iters_fifo (m : Nat) (s : State) (hm : s.dev.work_list.length ≤ m) :
    handler_calls (worker_iters s m).2 = s.dev.work_list.map (fun w => ((s.works w).fn, w))
    ∧ (worker_iters s m).1.dev.work_list = [] := by
  induction m generalizing s with
  | zero =>
    have : s.dev.work_list = [] := List.length_eq_zero.mp (Nat.le_zero.mp hm)
    simp [worker_iters, this, handler_calls]
  | succ m ih =>
    cases hl : s.dev.work_list with
    | nil =>
      obtain ⟨h1, h2⟩ := worker_iter_nil s hl
      obtain ⟨i1, i2⟩ := ih (v1000_worker_iter s false).1 (by rw [h1]; simp)
      refine ⟨?_, i2⟩
      show handler_calls (_ ++ _) = _
      rw [handler_calls_append, h2, i1, h1]
      rfl
    | cons w rest =>
      obtain ⟨h1, h2⟩ := worker_iter_cons s w rest hl
      have hlen : rest.length ≤ m := by
        rw [hl] at hm
        simp only [List.length_cons] at hm
        omega
      obtain ⟨i1, i2⟩ := ih (v1000_worker_iter s false).1 (by rw [h1]; exact hlen)
      refine ⟨?_, i2⟩
      show handler_calls (_ ++ _) = _
      rw [handler_calls_append, h2, i1, h1]
      simp only [List.map_cons, List.singleton_append, worker_iter_fn]

/-- C15. FIFO execution: pairwise distinct works enqueued in the order `ws` by
`v1000_work_queue` onto an empty work list form the work list `ws`, and any `m ≥ |ws|`
successive worker iterations without a stop request call the handlers of exactly these
works, in the order `ws`, each once, and leave the work list empty. -/
theorem C15_fifo (s : State) (ws : List Nat) (m : Nat)
    (hempty : s.dev.work_list = []) (hnd : ws.Nodup) (hm : ws.length ≤ m) :
    (work_queue_all s ws).dev.work_list = ws
    ∧ handler_calls (worker_iters (work_queue_all s ws) m).2 = ws.map (fun w => ((s.works w).fn, w))
    ∧ (worker_iters (work_queue_all s ws) m).1.dev.work_list = [] := by
  have hl : (work_queue_all s ws).dev.work_list = ws := by
    rw [work_queue_all_list ws s (by intro w _; rw [hempty]; exact List.not_mem_nil w) hnd,
      hempty]
    rfl
  obtain ⟨h1, h2⟩ := worker_iters_fifo m (work_queue_all s ws) (by rw [hl]; exact hm)
  refine ⟨hl, ?_, h2⟩
  rw [h1, hl]
  apply List.map_congr_left
  intro w _
  rw [work_queue_all_fn]

theorem C15_fifo_witness :
    (boot.dev.work_list = [] ∧ [3, 1, 2].Nodup ∧ [3, 1, 2].length ≤ 4)
    ∧ ((work_queue_all boot [3, 1, 2]).dev.work_list = [3, 1, 2]
    ∧ handler_calls (worker_iters (work_queue_all boot [3, 1, 2]) 4).2 = [3, 1, 2].map (fun w => ((boot.works w).fn, w))
    ∧ (worker_iters (work_queue_all boot [3, 1, 2]) 4).1.dev.work_list = []) :=
  ⟨⟨rfl, by decide, by decide⟩, C15_fifo boot [3, 1, 2] 4 rfl (by decide) (by decide)⟩

/-- C17. Cooperative stop: an iteration of the worker loop that finds a stop request first
stores the captured `seq` into `done_seq` of the work it ran before (waking the flushers when
`flushing` is positive) and then leaves the loop: the work list is as it was, no handler is
called and nothing else in the work structures changes. -/
theorem C17_cooperative_stop (s : State) :
    (v1000_worker_iter s true).2.2 = true
    ∧ (v1000_worker_iter s true).1.dev.work_list = s.dev.work_list
    ∧ handler_calls (v1000_worker_iter s true).2.1 = []
    ∧ (∀ w, s.wk_work = some w →
        ((v1000_worker_iter s true).1.works w).done_seq = s.wk_seq
        ∧ ((s.works w).flushing > 0 → Effect.wake_up_all w ∈ (v1000_worker_iter s true).2.1))
    ∧ (∀ v, s.wk_work ≠ some v → (v1000_worker_iter s true).1.works v = s.works v)
    ∧ (∀ v, ((v1000_worker_iter s true).1.works v).queue_seq = (s.works v).queue_seq) := by
  refine ⟨rfl, ?_, ?_, ?_, ?_, ?_⟩
  · simp only [v1000_worker_iter, if_true]
    rw [record_done_dev]
  · simp only [v1000_worker_iter, if_true]
    exact record_done_calls s
  · intro w hw
    refine ⟨?_, ?_⟩
    · simp only [v1000_worker_iter, if_true]
      rw [record_done_done_seq]
      simp [hw]
    · intro hf
      have hne : (s.works w).flushing ≠ 0 := by omega
      simp [v1000_worker_iter, worker_record_done, hw, hne]
  · intro v hv
    simp only [v1000_worker_iter, if_true]
    unfold worker_record_done
    split
    · rfl
    · rename_i x hx
      have hvx : ¬ v = x := by
        intro e
        subst e
        exact hv hx
      simp [set_work, hvx]
  · intro v
    simp only [v1000_worker_iter, if_true]
    exact record_done_queue_seq s v

/-- C18. Bounded gap and quiescent equality: in a state reached from an initial state by
`v1000_work_queue` calls and worker iterations with fewer than `2 ^ 31` enqueues of the
work, `done_seq ≤ queue_seq ≤ done_seq + 2`, and `queue_seq = done_seq` exactly when the work
is neither linked in the work list nor the work the worker has taken and not yet recorded.
A snapshot of `queue_seq` taken earlier on the way satisfies the wait condition of
`v1000_work_flush` only when `done_seq` has reached it, and then, if the work was not
enqueued after the snapshot, the work is neither linked nor held by the worker. -/
theorem C18_gap_and_quiescence (s0 : State) (tr1 tr2 : List Event) (w : Nat)
    (h0 : Initial s0) (hcnt : enq_count (tr1 ++ tr2) w < 2147483648) :
    ((run s0 (tr1 ++ tr2)).works w).done_seq ≤ ((run s0 (tr1 ++ tr2)).works w).queue_seq
    ∧ ((run s0 (tr1 ++ tr2)).works w).queue_seq - ((run s0 (tr1 ++ tr2)).works w).done_seq ≤ 2
    ∧ (((run s0 (tr1 ++ tr2)).works w).queue_seq = ((run s0 (tr1 ++ tr2)).works w).done_seq
        ↔ (w ∉ (run s0 (tr1 ++ tr2)).dev.work_list ∧ (run s0 (tr1 ++ tr2)).wk_work ≠ some w))
    ∧ (v1000_work_seq_done (run s0 (tr1 ++ tr2)) w ((run s0 tr1).works w).queue_seq = true →
        ((run s0 tr1).works w).queue_seq ≤ ((run s0 (tr1 ++ tr2)).works w).done_seq
        ∧ (enq_count tr2 w = 0 → w ∉ (run s0 (tr1 ++ tr2)).dev.work_list ∧ (run s0 (tr1 ++ tr2)).wk_work ≠ some w)) := by
  have hcnt2 : enq_count (tr1 ++ tr2) w = enq_count tr1 w + enq_count tr2 w := by
    simp [enq_count, List.count_append]
  have key : ∃ Qa Da Qb Db, seq_inv (run s0 tr1) w Qa Da
      ∧ seq_inv (run s0 (tr1 ++ tr2)) w Qb Db
      ∧ Qa ≤ enq_count tr1 w ∧ Qa ≤ Qb ∧ Qb ≤ Qa + enq_count tr2 w := by
    obtain ⟨Q1, D1, hi1, hl1, _, _⟩ := seq_inv_run tr1 s0 w 0 0 (seq_inv_initial s0 w h0)
    obtain ⟨Q2, D2, hi2, hl2, hg2, _⟩ := seq_inv_run tr2 (run s0 tr1) w Q1 D1 hi1
    rw [← run_append] at hi2
    exact ⟨Q1, D1, Q2, D2, hi1, hi2, by omega, hg2, hl2⟩
  obtain ⟨Q1, D1, Q2, D2, ⟨hq1, _, _, _, _⟩, ⟨hq2, hd2, _, hc2, _⟩, hb1, hb2, hb3⟩ := key
  have hQ2 : Q2 < 2147483648 := by omega
  have hgap : D2 ≤ Q2 ∧ Q2 ≤ D2 + 2 := by
    split at hc2 <;> split at hc2 <;> omega
  have hq2m : Q2 % 4294967296 = Q2 := Nat.mod_eq_of_lt (by omega)
  have hd2m : D2 % 4294967296 = D2 := Nat.mod_eq_of_lt (by omega)
  have hq1m : Q1 % 4294967296 = Q1 := Nat.mod_eq_of_lt (by omega)
  have hquiet : Q2 = D2 ↔ (w ∉ (run s0 (tr1 ++ tr2)).dev.work_list
      ∧ (run s0 (tr1 ++ tr2)).wk_work ≠ some w) := by
    constructor
    · intro e
      constructor
      · intro hm
        simp only [hm, if_true] at hc2
        omega
      · intro hk
        simp only [hk, if_true] at hc2
        omega
    · rintro ⟨hm, hk⟩
      simp only [hm, hk, if_false] at hc2
      omega
  rw [seq_done_iff, hq1, hq2, hd2, hq2m, hd2m, hq1m]
  refine ⟨hgap.1, by omega, hquiet, ?_⟩
  intro hrel
  unfold u32_sub at hrel
  have hge : Q1 ≤ D2 := by omega
  refine ⟨hge, ?_⟩
  intro hz
  exact hquiet.mp (by omega)

theorem C18_gap_and_quiescence_witness :
    (Initial boot
      ∧ enq_count ([Event.queue 0] ++ [Event.iter false, Event.iter false]) 0 < 2147483648)
    ∧ (((run boot ([Event.queue 0] ++ [Event.iter false, Event.iter false])).works 0).done_seq ≤ ((run boot ([Event.queue 0] ++ [Event.iter false, Event.iter false])).works 0).queue_seq
    ∧ ((run boot ([Event.queue 0] ++ [Event.iter false, Event.iter false])).works 0).queue_seq - ((run boot ([Event.queue 0] ++ [Event.iter false, Event.iter false])).works 0).done_seq ≤ 2
    ∧ (((run boot ([Event.queue 0] ++ [Event.iter false, Event.iter false])).works 0).queue_seq = ((run boot ([Event.queue 0] ++ [Event.iter false, Event.iter false])).works 0).done_seq
        ↔ (0 ∉ (run boot ([Event.queue 0] ++ [Event.iter false, Event.iter false])).dev.work_list ∧ (run boot ([Event.queue 0] ++ [Event.iter false, Event.iter false])).wk_work ≠ some 0))
    ∧ (v1000_work_seq_done (run boot ([Event.queue 0] ++ [Event.iter false, Event.iter false])) 0 ((run boot [Event.queue 0]).works 0).queue_seq = true →
        ((run boot [Event.queue 0]).works 0).queue_seq ≤ ((run boot ([Event.queue 0] ++ [Event.iter false, Event.iter false])).works 0).done_seq
        ∧ (enq_count [Event.iter false, Event.iter false] 0 = 0 → 0 ∉ (run boot ([Event.queue 0] ++ [Event.iter false, Event.iter false])).dev.work_list ∧ (run boot ([Event.queue 0] ++ [Event.iter false, Event.iter false])).wk_work ≠ some 0))) :=
  ⟨⟨⟨rfl, rfl, fun _ => rfl⟩, by decide⟩,
   C18_gap_and_quiescence boot [Event.queue 0] [Event.iter false, Event.iter false] 0
     ⟨rfl, rfl, fun _ => rfl⟩ (by decide)⟩

theorem set_ring_dev (s : State) (i : Fin 2) (r : v1000_ring) :
    (set_ring s i r).dev.mm = s.dev.mm ∧ (set_ring s i r).dev.worker = s.dev.worker
    ∧ (set_ring s i r).dev.memory = s.dev.memory
    ∧ (set_ring s i r).dev.work_list = s.dev.work_list := by
  unfold set_ring
  by_cases h : i = 0 <;> simp [h]

theorem dev_init_ring_dev (s : State) (i : Fin 2) :
    (dev_init_ring s i).dev.mm = s.dev.mm ∧ (dev_init_ring s i).dev.worker = s.dev.worker
    ∧ (dev_init_ring s i).dev.memory = s.dev.memory
    ∧ (dev_init_ring s i).dev.work_list = s.dev.work_list := by
  unfold dev_init_ring
  split
  · simp only [v1000_poll_init]
    obtain ⟨a1, a2, a3, a4⟩ := set_ring_dev (set_ring s i (v1000_vr_reset (ring s i))) i
      { ring (set_ring s i (v1000_vr_reset (ring s i))) i with
        poll := { (ring (set_ring s i (v1000_vr_reset (ring s i))) i).poll with
          mask := POLLIN, wqh := none } }
    obtain ⟨b1, b2, b3, b4⟩ := set_ring_dev s i (v1000_vr_reset (ring s i))
    exact ⟨a1.trans b1, a2.trans b2, a3.trans b3, a4.trans b4⟩
  · exact set_ring_dev s i _

theorem dev_init_dev (s : State) (tx rx : v1000_ring) :
    (v1000_dev_init s tx rx).1.dev.mm = none ∧ (v1000_dev_init s tx rx).1.dev.worker = none
    ∧ (v1000_dev_init s tx rx).1.dev.memory = none
    ∧ (v1000_dev_init s tx rx).1.dev.work_list = [] := by
  unfold v1000_dev_init
  refine ⟨?_, ?_, ?_, ?_⟩
  · rw [(dev_init_ring_dev _ _).1, (dev_init_ring_dev _ _).1]
  · rw [(dev_init_ring_dev _ _).2.1, (dev_init_ring_dev _ _).2.1]
  · rw [(dev_init_ring_dev _ _).2.2.1, (dev_init_ring_dev _ _).2.2.1]
  · rw [(dev_init_ring_dev _ _).2.2.2, (dev_init_ring_dev _ _).2.2.2]

/-- C19. Ownership can be re-acquired after cleanup: on an empty work list
`v1000_dev_cleanup` leaves `dev->mm`, `dev->worker`, `dev->memory` and the work list as
`v1000_dev_init` produces them (NULL, NULL, NULL, empty), and a following
`v1000_dev_set_owner` whose `kthread_create` succeeds returns `0`, binds the caller's
context and records the new worker. -/
theorem C19_reacquire_after_cleanup (s s2 : State) (tx rx : v1000_ring) (cur : task_struct)
    (t : Nat) (h : s.dev.work_list = []) :
    ((v1000_dev_cleanup s).1.dev.mm = (v1000_dev_init s2 tx rx).1.dev.mm
      ∧ (v1000_dev_cleanup s).1.dev.worker = (v1000_dev_init s2 tx rx).1.dev.worker
      ∧ (v1000_dev_cleanup s).1.dev.memory = (v1000_dev_init s2 tx rx).1.dev.memory
      ∧ (v1000_dev_cleanup s).1.dev.work_list = (v1000_dev_init s2 tx rx).1.dev.work_list)
    ∧ ((v1000_dev_init s2 tx rx).1.dev.mm = none ∧ (v1000_dev_init s2 tx rx).1.dev.worker = none ∧ (v1000_dev_init s2 tx rx).1.dev.memory = none
      ∧ (v1000_dev_init s2 tx rx).1.dev.work_list = [])
    ∧ (v1000_dev_set_owner (v1000_dev_cleanup s).1 cur (kthread_result.task t)).2.2 = 0
    ∧ (v1000_dev_set_owner (v1000_dev_cleanup s).1 cur (kthread_result.task t)).1.dev.mm = cur.mm
    ∧ (v1000_dev_set_owner (v1000_dev_cleanup s).1 cur (kthread_result.task t)).1.dev.worker = some t := by
  obtain ⟨d1, d2, d3, d4⟩ := dev_init_dev s2 tx rx
  have hc := cleanup_dev s
  refine ⟨⟨?_, ?_, ?_, ?_⟩, ⟨d1, d2, d3, d4⟩, ?_, ?_, ?_⟩
  · rw [d1, hc]
  · rw [d2, hc]
  · rw [d3, hc]
  · rw [d4, hc]; exact h
  · have hm : (v1000_dev_cleanup s).1.dev.mm = none := by rw [hc]
    simp [v1000_dev_set_owner, hm]
  · have hm : (v1000_dev_cleanup s).1.dev.mm = none := by rw [hc]
    simp [v1000_dev_set_owner, hm]
  · have hm : (v1000_dev_cleanup s).1.dev.mm = none := by rw [hc]
    simp [v1000_dev_set_owner, hm]

theorem C19_reacquire_after_cleanup_witness :
    owned_state.dev.work_list = []
    ∧ (((v1000_dev_cleanup owned_state).1.dev.mm = (v1000_dev_init boot (idle_ring 0) (idle_ring 1)).1.dev.mm
      ∧ (v1000_dev_cleanup owned_state).1.dev.worker = (v1000_dev_init boot (idle_ring 0) (idle_ring 1)).1.dev.worker
      ∧ (v1000_dev_cleanup owned_state).1.dev.memory = (v1000_dev_init boot (idle_ring 0) (idle_ring 1)).1.dev.memory
      ∧ (v1000_dev_cleanup owned_state).1.dev.work_list = (v1000_dev_init boot (idle_ring 0) (idle_ring 1)).1.dev.work_list)
    ∧ ((v1000_dev_init boot (idle_ring 0) (idle_ring 1)).1.dev.mm = none ∧ (v1000_dev_init boot (idle_ring 0) (idle_ring 1)).1.dev.worker = none ∧ (v1000_dev_init boot (idle_ring 0) (idle_ring 1)).1.dev.memory = none
      ∧ (v1000_dev_init boot (idle_ring 0) (idle_ring 1)).1.dev.work_list = [])
    ∧ (v1000_dev_set_owner (v1000_dev_cleanup owned_state).1 user_task (kthread_result.task 8)).2.2 = 0
    ∧ (v1000_dev_set_owner (v1000_dev_cleanup owned_state).1 user_task (kthread_result.task 8)).1.dev.mm = user_task.mm
    ∧ (v1000_dev_set_owner (v1000_dev_cleanup owned_state).1 user_task (kthread_result.task 8)).1.dev.worker = some 8) :=
  ⟨rfl, C19_reacquire_after_cleanup owned_state boot (idle_ring 0) (idle_ring 1) user_task 8 rfl⟩

theorem seq_inv_congr (s t : State) (w Q D : Nat) (h : seq_inv s w Q D)
    (hq : (t.works w).queue_seq = (s.works w).queue_seq)
    (hd : (t.works w).done_seq = (s.works w).done_seq)
    (hl : t.dev.work_list = s.dev.work_list)
    (hk : t.wk_work = s.wk_work) (hs : t.wk_seq = s.wk_seq) :
    seq_inv t w Q D := by
  unfold seq_inv at h ⊢
  rw [hq, hd, hl, hk, hs]
  exact h

theorem seq_inv_quiet (s : State) (w Q : Nat) (h : seq_inv s w Q Q) :
    w ∉ s.dev.work_list ∧ s.wk_work ≠ some w
    ∧ (s.works w).done_seq = (s.works w).queue_seq := by
  obtain ⟨hq, hd, _, hc, _⟩ := h
  refine ⟨?_, ?_, by rw [hq, hd]⟩
  · intro hm
    simp only [hm, if_true] at hc
    omega
  · intro hk
    simp only [hk, if_true] at hc
    omega

theorem step_rings (s : State) (e : Event) :
    (step s e).dev.tx_ring = s.dev.tx_ring ∧ (step s e).dev.rx_ring = s.dev.rx_ring := by
  cases e with
  | queue v =>
    simp only [step, v1000_work_queue]
    split <;> exact ⟨rfl, rfl⟩
  | iter b =>
    have e1 := record_done_dev s
    simp only [step, v1000_worker_iter]
    cases b with
    | true => simp only [if_true]; rw [e1]; exact ⟨rfl, rfl⟩
    | false =>
      simp only [Bool.false_eq_true, if_false]
      split <;> simp [e1]

theorem run_ring (tr : List Event) (s : State) (j : Fin 2) : ring (run s tr) j = ring s j := by
  induction tr generalizing s with
  | nil => rfl
  | cons e tr ih =>
    show ring (run (step s e) tr) j = _
    rw [ih]
    unfold ring
    rw [(step_rings s e).1, (step_rings s e).2]

theorem flush_begin_inv (s : State) (w v Q D : Nat) (h : seq_inv s v Q D) :
    seq_inv (v1000_work_flush_begin s w).1 v Q D := by
  apply seq_inv_congr s _ v Q D h
  · unfold v1000_work_flush_begin
    by_cases e : v = w
    · subst e; simp [set_work]
    · simp [set_work, e]
  · unfold v1000_work_flush_begin
    by_cases e : v = w
    · subst e; simp [set_work]
    · simp [set_work, e]
  · rfl
  · rfl
  · rfl

theorem flush_end_inv (s t : State) (w v Q D : Nat) (h : seq_inv s v Q D)
    (hret : v1000_work_flush_end s w = some t) :
    seq_inv t v Q D ∧ ∀ j, ring t j = ring s j := by
  unfold v1000_work_flush_end at hret
  split at hret
  · exact absurd hret (by simp)
  · simp only [Option.some.injEq] at hret
    subst hret
    refine ⟨?_, fun j => rfl⟩
    apply seq_inv_congr s _ v Q D h
    · by_cases e : v = w
      · subst e; simp [set_work]
      · simp [set_work, e]
    · by_cases e : v = w
      · subst e; simp [set_work]
      · simp [set_work, e]
    · rfl
    · rfl
    · rfl

/-- The wait of `v1000_work_flush` is released only in a state in which the work is
quiescent, provided the work is not enqueued while the flusher waits. -/
theorem work_flush_sound (s t : State) (w Q D : Nat) (env : List Event)
    (h : seq_inv s w Q D) (hno : enq_count env w = 0)
    (hret : v1000_work_flush s w env = some t) :
    seq_inv t w Q Q ∧ ∀ j, ring t j = ring s j := by
  unfold v1000_work_flush at hret
  split at hret
  · rename_i hrel
    have hS : (v1000_work_flush_begin s w).2 = Q % 4294967296 := h.1
    obtain ⟨Q1, D1, hi, hle, hge, _⟩ :=
      seq_inv_run env (v1000_work_flush_begin s w).1 w Q D (flush_begin_inv s w w Q D h)
    have hQ : Q1 = Q := by omega
    subst hQ
    rw [seq_done_iff, hS, hi.2.1] at hrel
    have hc := hi.2.2.2.1
    have hD : D1 = Q1 := by
      unfold u32_sub at hrel
      split at hc <;> split at hc <;> omega
    subst hD
    obtain ⟨hinv, hr⟩ := flush_end_inv _ t w w D1 D1 hi hret
    refine ⟨hinv, fun j => ?_⟩
    rw [hr j, run_ring]
    rfl
  · exact absurd hret (by simp)

/-- A flush of the work `w` preserves the invariant of every work `v`, and the quiescence
of `v` when `v` is not enqueued meanwhile. -/
theorem work_flush_inv (s t : State) (w v Q D : Nat) (env : List Event)
    (h : seq_inv s v Q D) (hret : v1000_work_flush s w env = some t) :
    ∃ Q1 D1, seq_inv t v Q1 D1 ∧ (enq_count env v = 0 → Q = D → Q1 = Q ∧ D1 = Q) := by
  unfold v1000_work_flush at hret
  split at hret
  · obtain ⟨Q1, D1, hi, hle, hge, hdd⟩ :=
      seq_inv_run env (v1000_work_flush_begin s w).1 v Q D (flush_begin_inv s w v Q D h)
    obtain ⟨hinv, _⟩ := flush_end_inv _ t w v Q1 D1 hi hret
    refine ⟨Q1, D1, hinv, ?_⟩
    intro hno hQD
    have hc := hi.2.2.2.1
    split at hc <;> split at hc <;> omega
  · exact absurd hret (by simp)

theorem work_flush_ring (s t : State) (w : Nat) (env : List Event)
    (hret : v1000_work_flush s w env = some t) (j : Fin 2) : ring t j = ring s j := by
  unfold v1000_work_flush at hret
  split at hret
  · unfold v1000_work_flush_end at hret
    split at hret
    · exact absurd hret (by simp)
    · simp only [Option.some.injEq] at hret
      subst hret
      show ring (run (v1000_work_flush_begin s w).1 env) j = _
      rw [run_ring]
      rfl
  · exact absurd hret (by simp)

theorem set_ring_wk (s : State) (i : Fin 2) (r : v1000_ring) :
    (set_ring s i r).wk_work = s.wk_work ∧ (set_ring s i r).wk_seq = s.wk_seq := by
  unfold set_ring
  by_cases h : i = 0 <;> simp [h]

theorem poll_stop_inv (s : State) (i : Fin 2) (v Q D : Nat) (h : seq_inv s v Q D) :
    seq_inv (v1000_poll_stop s i).1 v Q D := by
  obtain ⟨hw, hl, _⟩ := poll_stop_frame s i
  apply seq_inv_congr s _ v Q D h
  · rw [hw]
  · rw [hw]
  · exact hl
  · unfold v1000_poll_stop
    split
    · exact (set_ring_wk _ _ _).1
    · rfl
  · unfold v1000_poll_stop
    split
    · exact (set_ring_wk _ _ _).2
    · rfl

theorem poll_stop_ring (s : State) (i j : Fin 2) :
    (ring (v1000_poll_stop s i).1 j).kick = (ring s j).kick
    ∧ (ring (v1000_poll_stop s i).1 j).handle_kick = (ring s j).handle_kick
    ∧ (ring (v1000_poll_stop s i).1 j).poll.work = (ring s j).poll.work
    ∧ (j ≠ i → (ring (v1000_poll_stop s i).1 j).poll.wqh = (ring s j).poll.wqh) := by
  unfold v1000_poll_stop
  split
  · fin_cases i <;> fin_cases j <;> simp [ring, set_ring, remove_wait_queue]
  · simp

theorem worker_iter_calls_mem (s : State) (b : Bool) (fn w : Nat)
    (h : (fn, w) ∈ handler_calls (v1000_worker_iter s b).2.1) : w ∈ s.dev.work_list := by
  cases b with
  | true =>
    simp only [v1000_worker_iter, if_true] at h
    rw [record_done_calls] at h
    exact absurd h (List.not_mem_nil _)
  | false =>
    cases hl : s.dev.work_list with
    | nil =>
      rw [(worker_iter_nil s hl).2] at h
      exact absurd h (List.not_mem_nil _)
    | cons x rest =>
      rw [(worker_iter_cons s x rest hl).2] at h
      simp only [List.mem_singleton, Prod.mk.injEq] at h
      rw [h.2]
      exact List.mem_cons_self x rest

theorem work_queue_calls (s : State) (v : Nat) : handler_calls (v1000_work_queue s v).2 = [] := by
  unfold v1000_work_queue
  split <;> rfl

/-- A quiescent work that is not enqueued stays quiescent, and no worker iteration calls its
handler. -/
theorem quiet_run (tr : List Event) (s : State) (w Q : Nat) (h : seq_inv s w Q Q)
    (hno : enq_count tr w = 0) :
    seq_inv (run s tr) w Q Q ∧ ∀ fn, (fn, w) ∉ handler_calls (run_log s tr) := by
  induction tr generalizing s with
  | nil =>
    refine ⟨h, fun fn hm => ?_⟩
    exact absurd hm (List.not_mem_nil _)
  | cons e tr ih =>
    have hq := seq_inv_quiet s w Q h
    cases e with
    | queue v =>
      have hcnt : enq_count (Event.queue v :: tr) w
          = enq_count tr w + (if v = w then 1 else 0) := by
        simp [enq_count, List.count_cons]
      rw [hcnt] at hno
      have hvw : ¬ v = w := by
        intro e
        simp only [e, if_true] at hno
        omega
      obtain ⟨Q1, h1, hle, hge⟩ := seq_inv_queue s w v Q Q h
      simp only [hvw, if_false] at hle
      have hQ : Q1 = Q := by omega
      subst hQ
      obtain ⟨i1, i2⟩ := ih (step s (Event.queue v)) h1 (by omega)
      refine ⟨i1, fun fn hm => ?_⟩
      simp only [run_log, step_log] at hm
      rw [handler_calls_append, work_queue_calls, List.nil_append] at hm
      exact i2 fn hm
    | iter b =>
      have hcnt : enq_count (Event.iter b :: tr) w = enq_count tr w := by
        simp [enq_count, List.count_cons]
      rw [hcnt] at hno
      obtain ⟨D1, h1, hd1⟩ := seq_inv_iter s b w Q Q h
      have hD : D1 = Q := by
        have hc := h1.2.2.2.1
        split at hc <;> split at hc <;> omega
      subst hD
      obtain ⟨i1, i2⟩ := ih (step s (Event.iter b)) h1 hno
      refine ⟨i1, fun fn hm => ?_⟩
      simp only [run_log, step_log] at hm
      rw [handler_calls_append] at hm
      rcases List.mem_append.mp hm with hm1 | hm1
      · exact hq.1 (worker_iter_calls_mem s b fn w hm1)
      · exact i2 fn hm1

theorem dev_stop_ring_inv (s t : State) (i : Fin 2) (env : List Event) (v Q D : Nat)
    (h : seq_inv s v Q D) (hret : dev_stop_ring s i env = some t) :
    ∃ Q1 D1, seq_inv t v Q1 D1 ∧ (enq_count env v = 0 → Q = D → Q1 = Q ∧ D1 = Q) := by
  unfold dev_stop_ring at hret
  split at hret
  · exact work_flush_inv _ t _ v Q D env (poll_stop_inv s i v Q D h) hret
  · simp only [Option.some.injEq] at hret
    subst hret
    exact ⟨Q, D, h, fun _ e => ⟨rfl, e.symm⟩⟩

theorem dev_stop_ring_ring (s t : State) (i j : Fin 2) (env : List Event)
    (hret : dev_stop_ring s i env = some t) :
    (ring t j).kick = (ring s j).kick
    ∧ (ring t j).handle_kick = (ring s j).handle_kick
    ∧ (ring t j).poll.work = (ring s j).poll.work
    ∧ (j ≠ i → (ring t j).poll.wqh = (ring s j).poll.wqh) := by
  unfold dev_stop_ring at hret
  split at hret
  · rw [work_flush_ring _ t _ env hret j]
    exact poll_stop_ring s i j
  · simp only [Option.some.injEq] at hret
    subst hret
    exact ⟨rfl, rfl, rfl, fun _ => rfl⟩

theorem dev_stop_ring_sound (s t : State) (i : Fin 2) (env : List Event) (Q D : Nat)
    (h : seq_inv s (ring s i).poll.work Q D)
    (hring : (ring s i).kick.isSome = true ∧ (ring s i).handle_kick.isSome = true)
    (hno : enq_count env (ring s i).poll.work = 0)
    (hret : dev_stop_ring s i env = some t) :
    seq_inv t (ring s i).poll.work Q Q ∧ (ring t i).poll.wqh = none := by
  unfold dev_stop_ring at hret
  simp only [hring.1, hring.2, Bool.and_self, if_true, v1000_poll_flush] at hret
  rw [(poll_stop_ring s i i).2.2.1] at hret
  obtain ⟨hinv, hr⟩ := work_flush_sound _ t _ Q D env
    (poll_stop_inv s i _ Q D h) hno hret
  refine ⟨hinv, ?_⟩
  rw [hr i]
  exact (poll_stop_frame s i).2.2

/-- C16. Stop quiescence: once `v1000_dev_stop` has returned, every ring that has a kick
file and a handler has its adapter unregistered (`poll->wqh` NULL) and, as long as its work
is not enqueued after its adapter was stopped, its work is not linked in the work list, is
not the work the worker holds, has `done_seq = queue_seq`, and no later worker iteration
calls its handler. -/
theorem C16_stop_quiescence (s0 s1 : State) (tr0 env0 env1 tr3 : List Event) (i : Fin 2)
    (h0 : Initial s0)
    (hring : (ring (run s0 tr0) i).kick.isSome = true
      ∧ (ring (run s0 tr0) i).handle_kick.isSome = true)
    (hret : v1000_dev_stop (run s0 tr0) env0 env1 = some s1)
    (hno : (i = 0 → enq_count env0 (ring (run s0 tr0) i).poll.work = 0)
      ∧ enq_count env1 (ring (run s0 tr0) i).poll.work = 0
      ∧ enq_count tr3 (ring (run s0 tr0) i).poll.work = 0) :
    (ring (run s1 tr3) i).poll.wqh = none
    ∧ (ring (run s0 tr0) i).poll.work ∉ (run s1 tr3).dev.work_list
    ∧ (run s1 tr3).wk_work ≠ some (ring (run s0 tr0) i).poll.work
    ∧ ((run s1 tr3).works (ring (run s0 tr0) i).poll.work).done_seq = ((run s1 tr3).works (ring (run s0 tr0) i).poll.work).queue_seq
    ∧ (∀ fn, (fn, (ring (run s0 tr0) i).poll.work) ∉ handler_calls (run_log s1 tr3)) := by
  obtain ⟨Q, D, hinv, _, _, _⟩ :=
    seq_inv_run tr0 s0 (ring (run s0 tr0) i).poll.work 0 0 (seq_inv_initial s0 _ h0)
  have key : ∃ Q1, seq_inv s1 (ring (run s0 tr0) i).poll.work Q1 Q1
      ∧ (ring s1 i).poll.wqh = none := by
    unfold v1000_dev_stop at hret
    split at hret
    · exact absurd hret (by simp)
    · rename_i sA hA
      by_cases hi : i = 0
      · subst hi
        obtain ⟨ha, hwq⟩ := dev_stop_ring_sound _ sA 0 env0 Q D hinv hring (hno.1 rfl) hA
        obtain ⟨Q1, D1, hb, hqq⟩ := dev_stop_ring_inv sA s1 1 env1 _ Q Q ha hret
        obtain ⟨e1, e2⟩ := hqq hno.2.1 rfl
        rw [e1, e2] at hb
        refine ⟨Q, hb, ?_⟩
        rw [(dev_stop_ring_ring sA s1 1 0 env1 hret).2.2.2 (by decide)]
        exact hwq
      · have hi1 : i = 1 := by
          fin_cases i
          · exact absurd rfl hi
          · rfl
        subst hi1
        obtain ⟨r1, r2, r3, _⟩ := dev_stop_ring_ring _ sA 0 1 env0 hA
        obtain ⟨Q1, D1, ha, _⟩ := dev_stop_ring_inv _ sA 0 env0 _ Q D hinv hA
        rw [← r3] at ha hno
        rw [← r1, ← r2] at hring
        obtain ⟨hb, hwq⟩ := dev_stop_ring_sound sA s1 1 env1 Q1 D1 ha hring hno.2.1 hret
        rw [r3] at hb
        exact ⟨Q1, hb, hwq⟩
  obtain ⟨Q1, hq, hwq⟩ := key
  obtain ⟨hf, hcalls⟩ := quiet_run tr3 s1 _ Q1 hq hno.2.2
  obtain ⟨f1, f2, f3⟩ := seq_inv_quiet _ _ _ hf
  refine ⟨?_, f1, f2, f3, hcalls⟩
  rw [run_ring]
  exact hwq

theorem C16_stop_quiescence_witness :
    (Initial armed_state
      ∧ ((ring (run armed_state [Event.queue 0]) 0).kick.isSome = true
        ∧ (ring (run armed_state [Event.queue 0]) 0).handle_kick.isSome = true)
      ∧ v1000_dev_stop (run armed_state [Event.queue 0]) [Event.iter false, Event.iter false] [] = some stopped_state
      ∧ (((0 : Fin 2) = 0 → enq_count [Event.iter false, Event.iter false] (ring (run armed_state [Event.queue 0]) 0).poll.work = 0)
        ∧ enq_count [] (ring (run armed_state [Event.queue 0]) 0).poll.work = 0
        ∧ enq_count [Event.iter false, Event.queue 1, Event.iter false] (ring (run armed_state [Event.queue 0]) 0).poll.work = 0))
    ∧ ((ring (run stopped_state [Event.iter false, Event.queue 1, Event.iter false]) 0).poll.wqh = none
    ∧ (ring (run armed_state [Event.queue 0]) 0).poll.work ∉ (run stopped_state [Event.iter false, Event.queue 1, Event.iter false]).dev.work_list
    ∧ (run stopped_state [Event.iter false, Event.queue 1, Event.iter false]).wk_work ≠ some (ring (run armed_state [Event.queue 0]) 0).poll.work
    ∧ ((run stopped_state [Event.iter false, Event.queue 1, Event.iter false]).works (ring (run armed_state [Event.queue 0]) 0).poll.work).done_seq = ((run stopped_state [Event.iter false, Event.queue 1, Event.iter false]).works (ring (run armed_state [Event.queue 0]) 0).poll.work).queue_seq
    ∧ (∀ fn, (fn, (ring (run armed_state [Event.queue 0]) 0).poll.work) ∉ handler_calls (run_log stopped_state [Event.iter false, Event.queue 1, Event.iter false]))) :=
  ⟨⟨⟨rfl, rfl, fun _ => rfl⟩, ⟨by decide, by decide⟩, rfl,
      ⟨fun _ => by decide, by decide, by decide⟩⟩,
   C16_stop_quiescence armed_state stopped_state [Event.queue 0] [Event.iter false, Event.iter false] [] [Event.iter false, Event.queue 1, Event.iter false] 0
     ⟨rfl, rfl, fun _ => rfl⟩ ⟨by decide, by decide⟩ rfl
     ⟨fun _ => by decide, by decide, by decide⟩⟩

end V1000
